import Mathlib

/-!
# esp_http_server: route table, request-line parser and response builder

A shallow embedding of `src/src/esp_http_server.cpp` and `src/inc/http_server.hpp`.

Conventions of the embedding:

* a byte is a `Nat` (the value of an `unsigned char`); a byte string
  (`std::string`, `std::string_view`, a receive buffer) is a `List Nat`;
* a `const char *` is `Option (List Nat)`: `none` is `nullptr`, `some s` points to
  the bytes `s` followed by the terminating NUL; C string functions (`strcmp`,
  `strncmp`, the `%s` conversion) stop at the first NUL byte they meet;
* a `std::string_view` or `const char *` that an object keeps (`HttpRoute::uri`,
  `Header::key`) is not a copy: the field of the model holds the bytes the view
  or pointer reads at the moment, and what the caller writes to that storage
  between two calls is a step of its own (`caller_write`, `caller_write_key`) in
  the sequences `run_table_steps` and `run_resp_steps`;
* a fixed-size array (`std::array<T, N>`, `T[N]`) is a `List T` of length `N`,
  written with `List.set` and read with `List.getD`;
* `uint32_t` arithmetic is arithmetic on `Nat` modulo `2 ^ 32`;
* `assert` is governed by the `NDEBUG` macro, which is a parameter `ndebug` of
  every function that contains an assertion: when it is `false` a failed
  assertion aborts the program (`Outcome.abort`);
* logging (`ESP_LOGW`) has no effect on the state and is left out;
* a connection (`struct netconn *`) is the record of what happened on it, a list
  of `ConnEvent`; a handler (`HttpHandler`) is the address of a function, `0` for
  `nullptr`, and `handle_client` takes the behaviour of the functions as a
  parameter.
-/

namespace http_server

/-! ## Bytes and C library functions -/

/-- The bytes of an ASCII string literal. -/
def bytes (s : String) : List Nat := s.toList.map Char.toNat

/-- Result of a call that may stop the program at a failed `assert`. -/
inductive Outcome (α : Type) where
  | ret : α → Outcome α
  | abort : Outcome α
  deriving DecidableEq, Repr

/-- `assert(cond)` from `<cassert>`: nothing when `NDEBUG` is defined, otherwise
the program is aborted when `cond` is false. -/
def c_assert (ndebug : Bool) (cond : Bool) : Outcome Unit :=
  if ndebug || cond then Outcome.ret () else Outcome.abort

/-- `strncmp(a, b, n)`: compares at most `n` bytes and stops after a NUL; a list
that has run out reads as its terminating NUL. -/
def strncmp : List Nat → List Nat → Nat → Int
  | _, _, 0 => 0
  | a, b, n + 1 =>
    let c1 := a.headD 0
    let c2 := b.headD 0
    if c1 ≠ c2 then (c1 : Int) - (c2 : Int)
    else if c1 = 0 then 0
    else strncmp a.tail b.tail n

/-- `strcmp(a, b)` on two NUL-terminated strings. -/
def strcmp (a b : List Nat) : Int :=
  strncmp a b (max a.length b.length + 1)

/-- `memchr(s, c, n)`: the offset of the first byte equal to `c` among the first
`n` bytes of `s`, `none` for a null result. -/
def memchr (s : List Nat) (c : Nat) (n : Nat) : Option Nat :=
  let i := (s.take n).findIdx (fun b => b == c)
  if i < (s.take n).length then some i else none

/-- The bytes printed by the `%s` conversion for the string stored in `s`:
everything before the first NUL byte. -/
def fmt_s (s : List Nat) : List Nat := s.takeWhile (fun b => b != 0)

/-- Decimal digits of a natural number (`std::to_string` of a `size_t`). -/
def decimal (n : Nat) : List Nat := (Nat.toDigits 10 n).map Char.toNat

/-- The bytes printed by the `%d` conversion. -/
def fmt_d (i : Int) : List Nat :=
  if i < 0 then 45 :: decimal i.natAbs else decimal i.toNat

/-- Largest value of `int`. -/
def INT_MAX : Nat := 2147483647

/-- Return value of `snprintf` for a formatted output `out`: the number of bytes
the complete output has, or a negative value when that does not fit an `int`. -/
def snprintf_ret (out : List Nat) : Int :=
  if out.length > INT_MAX then -1 else (out.length : Int)

/-! ## Route table -/

/-- `enum class HttpMethod`. -/
inductive HttpMethod where
  | GET
  | POST
  deriving DecidableEq, Repr, Inhabited

/-- `struct HttpRoute`; `uri` is the bytes the stored `std::string_view` reads at
the moment, the handler is the address of the function, `0` for `nullptr`. -/
structure HttpRoute where
  uri : List Nat
  method : HttpMethod
  handler : Nat
  deriving DecidableEq, Repr, Inhabited

/-- Capacity of the route table. -/
def MAX_ROUTES : Nat := 10

/-- The data members of `class HttpServer` that make the route table. -/
structure HttpServer where
  routes : List HttpRoute
  route_hashes : List Nat
  route_count : Nat
  deriving DecidableEq, Repr

/-- `HttpServer::fnv1a_hash`. -/
def fnv1a_hash (data : List Nat) : Nat :=
  data.foldl (fun hash c => ((hash ^^^ (c % 256)) * 16777619) % 2 ^ 32) 2166136261

/-- `HttpServer::HttpServer()`: `route_count` is 0; `routes0` and `hashes0` are the
contents the two arrays happen to have, which the constructor does not set. -/
def HttpServer.new (routes0 : List HttpRoute) (hashes0 : List Nat) : HttpServer :=
  { routes := routes0, route_hashes := hashes0, route_count := 0 }

/-- `HttpServer::add_route`: one call. The slot keeps the view `uri` (here what it
reads during the call) and the hash of the bytes it reads during the call. -/
def add_route (ndebug : Bool) (t : HttpServer) (uri : List Nat) (method : HttpMethod)
    (handler : Nat) : Outcome (Bool × HttpServer) :=
  if t.route_count ≥ MAX_ROUTES then
    match c_assert ndebug false with
    | Outcome.abort => Outcome.abort
    | Outcome.ret _ => Outcome.ret (false, t)
  else
    Outcome.ret (true,
      { routes := t.routes.set t.route_count { uri := uri, method := method, handler := handler },
        route_hashes := t.route_hashes.set t.route_count (fnv1a_hash uri),
        route_count := t.route_count + 1 })

/-- `HttpServer::method_to_str`. -/
def method_to_str : HttpMethod → List Nat
  | HttpMethod.GET => bytes "GET"
  | HttpMethod.POST => bytes "POST"

/-- `HttpServer::parse_request_line` on the buffer `req` (`len` is its length):
`none` for `false`, `some (method, uri)` for `true` with the two output
parameters. -/
def parse_request_line (req : List Nat) : Option (HttpMethod × List Nat) :=
  let len := req.length
  if len < 5 then none
  else if strncmp req (bytes "GET ") 4 = 0 then
    let start := req.drop 4
    match memchr start 32 (len - 4) with
    | none => none
    | some e => some (HttpMethod.GET, start.take e)
  else if strncmp req (bytes "POST ") 5 = 0 then
    let start := req.drop 5
    match memchr start 32 (len - 5) with
    | none => none
    | some e => some (HttpMethod.POST, start.take e)
  else none

/-- `HttpServer::find_route`: the index of the slot the returned pointer points
to, `none` for `nullptr`. -/
def find_route (t : HttpServer) (uri : List Nat) (method : HttpMethod) : Option Nat :=
  if t.route_count = 0 then none
  else
    let search_hash := fnv1a_hash uri
    (List.range t.route_count).find? (fun i =>
      t.route_hashes.getD i 0 == search_hash
        && (t.routes.getD i default).method == method
        && (t.routes.getD i default).uri == uri)

/-! ## Response builder -/

/-- Capacity of the header list of a response. -/
def MAX_HEADERS : Nat := 10

/-- Size of the local buffer of `build_response`. -/
def BUFFER_SIZE : Nat := 1024

/-- `struct HttpResponse::Header`; `key` is the string the stored pointer points
to at the moment. -/
structure Header where
  key : List Nat
  value : List Nat
  deriving DecidableEq, Repr, Inhabited

/-- The data members of `class HttpResponse`; `status_code` is the `int` value of
the `StatusCode`. -/
structure HttpResponse where
  status_code : Int
  headers : List Header
  header_count : Nat
  body_ : List Nat
  deriving DecidableEq, Repr

/-- `HttpResponse::set_header`: one call. A new header keeps the pointer `key`
(here the string it points to during the call) and a copy of the value. -/
def set_header (ndebug : Bool) (r : HttpResponse) (key : Option (List Nat)) (value : List Nat) :
    Outcome (Bool × HttpResponse) :=
  match key with
  | none => Outcome.ret (false, r)
  | some k =>
    match (List.range r.header_count).find? (fun i => strcmp (r.headers.getD i default).key k == 0) with
    | some i =>
      Outcome.ret (true,
        { r with headers := r.headers.set i { r.headers.getD i default with value := value } })
    | none =>
      if r.header_count ≥ MAX_HEADERS then
        match c_assert ndebug false with
        | Outcome.abort => Outcome.abort
        | Outcome.ret _ => Outcome.ret (false, r)
      else
        Outcome.ret (true,
          { r with
            headers := r.headers.set r.header_count { key := k, value := value },
            header_count := r.header_count + 1 })

/-- `HttpResponse::HttpResponse(StatusCode code)`; `headers0` is the initial
content of the header array (ten default-constructed entries in the source). -/
def HttpResponse.new (ndebug : Bool) (headers0 : List Header) (code : Int) : Outcome HttpResponse :=
  match set_header ndebug
      { status_code := code, headers := headers0, header_count := 0, body_ := [] }
      (some (bytes "Content-Type")) (bytes "text/plain") with
  | Outcome.abort => Outcome.abort
  | Outcome.ret p => Outcome.ret p.2

/-- `HttpResponse::set_status`. -/
def set_status (r : HttpResponse) (code : Int) : HttpResponse :=
  { r with status_code := code }

/-- `HttpResponse::set_body`; the result of `set_header` is discarded. -/
def set_body (ndebug : Bool) (r : HttpResponse) (body : List Nat) : Outcome HttpResponse :=
  match set_header ndebug { r with body_ := body } (some (bytes "Content-Length"))
      (decimal body.length) with
  | Outcome.abort => Outcome.abort
  | Outcome.ret p => Outcome.ret p.2

/-- `HttpResponse::status_text`. -/
def status_text (code : Int) : List Nat :=
  if code = 200 then bytes "OK"
  else if code = 404 then bytes "Not Found"
  else if code = 400 then bytes "Bad Request"
  else if code = 500 then bytes "Internal Server Error"
  else bytes ""

/-- One `snprintf(buffer + offset, BUFFER_SIZE - offset, ...)` of `build_response`
followed by its check: `buf` holds the `offset = buf.length` bytes written so
far, `out` is the complete formatted output; `none` when the function returns
the empty string. -/
def append_fmt (buf : List Nat) (out : List Nat) : Option (List Nat) :=
  let written := snprintf_ret out
  if written < 0 ∨ written.toNat ≥ BUFFER_SIZE - buf.length then none
  else some (buf ++ out)

/-- The formatted output of `"%s: %s\r\n"` for one header. -/
def header_line (h : Header) : List Nat :=
  fmt_s h.key ++ bytes ": " ++ fmt_s h.value ++ bytes "\r\n"

/-- The formatted output of `"HTTP/1.1 %d %s\r\n"`. -/
def status_line (code : Int) : List Nat :=
  bytes "HTTP/1.1 " ++ fmt_d code ++ bytes " " ++ fmt_s (status_text code) ++ bytes "\r\n"

/-- `HttpResponse::build_response`; `[]` is the empty `std::string`. -/
def build_response (r : HttpResponse) : List Nat :=
  match append_fmt [] (status_line r.status_code) with
  | none => []
  | some buf1 =>
    match (List.range r.header_count).foldlM
        (fun buf i => append_fmt buf (header_line (r.headers.getD i default))) buf1 with
    | none => []
    | some buf2 =>
      if buf2.length + 2 ≥ BUFFER_SIZE then []
      else
        let buf3 := buf2 ++ bytes "\r\n"
        if buf3.length + r.body_.length ≥ BUFFER_SIZE then []
        else buf3 ++ r.body_

/-! ## Sequences of calls and invariants -/

/-- The routes the table holds: the first `route_count` slots. -/
def stored (t : HttpServer) : List HttpRoute := t.routes.take t.route_count

/-- A sequence of `add_route` calls, one per element of `calls`, whatever each of
them returns, with no write to the storage of a uri in between; the program
stops at the first call that aborts. -/
def add_routes (ndebug : Bool) (t : HttpServer) : List HttpRoute → Outcome HttpServer
  | [] => Outcome.ret t
  | c :: cs =>
    match add_route ndebug t c.uri c.method c.handler with
    | Outcome.abort => Outcome.abort
    | Outcome.ret p => add_routes ndebug p.2 cs

/-- Both arrays have their declared size, the count is within it, and every
stored hash is the hash of the uri stored beside it. -/
def TableInv (t : HttpServer) : Prop :=
  t.routes.length = MAX_ROUTES ∧ t.route_hashes.length = MAX_ROUTES ∧
  t.route_count ≤ MAX_ROUTES ∧
  ∀ i, i < t.route_count → t.route_hashes.getD i 0 = fnv1a_hash (t.routes.getD i default).uri

/-- Whether slot `i` of the table holds a route with the given uri and method. -/
def slot_matches (t : HttpServer) (uri : List Nat) (method : HttpMethod) (i : Nat) : Prop :=
  (t.routes.getD i default).uri = uri ∧ (t.routes.getD i default).method = method

instance (t : HttpServer) (uri : List Nat) (method : HttpMethod) (i : Nat) :
    Decidable (slot_matches t uri method i) := by
  unfold slot_matches; infer_instance

instance (t : HttpServer) : Decidable (TableInv t) := by
  unfold TableInv; infer_instance

/-! ## Concrete inputs -/

/-- Three registrations, the first two with the same uri and method. -/
def ex_calls : List HttpRoute :=
  [ { uri := bytes "/hello", method := HttpMethod.GET, handler := 1 },
    { uri := bytes "/hello", method := HttpMethod.GET, handler := 2 },
    { uri := bytes "/submit", method := HttpMethod.POST, handler := 3 } ]

/-- The table after the three registrations of `ex_calls`, built on arrays that
held default entries and zero hashes. -/
def ex_table : HttpServer :=
  { routes := ex_calls ++ List.replicate 7 default,
    route_hashes := ex_calls.map (fun c => fnv1a_hash c.uri) ++ List.replicate 7 0,
    route_count := 3 }

/-! ## Serializations -/

/-- The headers a response holds: slots `0`, ..., `header_count - 1`, in order. -/
def active_headers (r : HttpResponse) : List Header :=
  (List.range r.header_count).map (fun i => r.headers.getD i default)

/-- Everything `build_response` formats, in the order it formats it, without the
limit of the buffer: the status line, one line per header, the blank line and
the body. -/
def formatted (r : HttpResponse) : List Nat :=
  status_line r.status_code ++ (active_headers r).flatMap header_line ++ bytes "\r\n" ++ r.body_

/-- The reason phrase as the specification lists it. -/
def spec_reason (code : Int) : List Nat :=
  if code = 200 then bytes "OK"
  else if code = 400 then bytes "Bad Request"
  else if code = 404 then bytes "Not Found"
  else if code = 500 then bytes "Internal Server Error"
  else []

/-- The full serialization in the words of the specification: the status line
with the decimal code and the reason, every header as key, colon, space, value
and line end in insertion order, a blank line, and the body bytes. -/
def spec_serialization (r : HttpResponse) : List Nat :=
  bytes "HTTP/1.1 " ++ fmt_d r.status_code ++ bytes " " ++ spec_reason r.status_code ++ bytes "\r\n"
    ++ (active_headers r).flatMap (fun h => h.key ++ bytes ": " ++ h.value ++ bytes "\r\n")
    ++ bytes "\r\n" ++ r.body_

/-- The response `HttpResponse()` constructs (status 200) on an array of default
entries. -/
def ex_resp : HttpResponse :=
  { status_code := 200,
    headers := { key := bytes "Content-Type", value := bytes "text/plain" } :: List.replicate 9 default,
    header_count := 1,
    body_ := [] }

/-- The response `ex_resp` after `set_header("X", v)` where `v` is the three bytes
'a', NUL, 'b'. -/
def ex_resp_nul : HttpResponse :=
  { ex_resp with
    headers := [{ key := bytes "Content-Type", value := bytes "text/plain" },
        { key := bytes "X", value := [97, 0, 98] }] ++ List.replicate 8 default,
    header_count := 2 }

/-- The response `ex_resp` after `set_header("X", v)` where `v` is a NUL byte
followed by 1100 bytes 'a'. -/
def ex_resp_nul_long : HttpResponse :=
  { ex_resp with
    headers := [{ key := bytes "Content-Type", value := bytes "text/plain" },
        { key := bytes "X", value := 0 :: List.replicate 1100 97 }] ++ List.replicate 8 default,
    header_count := 2 }

/-- The response `ex_resp` after `set_body` with a body of `n` bytes 'A'. -/
def ex_resp_body (n : Nat) : HttpResponse :=
  { ex_resp with
    headers := [{ key := bytes "Content-Type", value := bytes "text/plain" },
        { key := bytes "Content-Length", value := decimal n }] ++ List.replicate 8 default,
    header_count := 2,
    body_ := List.replicate n 65 }

/-- The response `ex_resp` after `set_header("X", v)` where `v` is 1100 bytes 'a'. -/
def ex_resp_long_value : HttpResponse :=
  { ex_resp with
    headers := [{ key := bytes "Content-Type", value := bytes "text/plain" },
        { key := bytes "X", value := List.replicate 1100 97 }] ++ List.replicate 8 default,
    header_count := 2 }

/-! ## Sequences of calls on a response -/

/-- One call of a mutating member function of `HttpResponse`. -/
inductive RespCall where
  | set_status (code : Int)
  | set_header (key : Option (List Nat)) (value : List Nat)
  | set_body (body : List Nat)
  deriving DecidableEq, Repr

/-- The response after one call. -/
def apply_call (ndebug : Bool) (r : HttpResponse) : RespCall → Outcome HttpResponse
  | RespCall.set_status code => Outcome.ret (set_status r code)
  | RespCall.set_header key value =>
    match set_header ndebug r key value with
    | Outcome.abort => Outcome.abort
    | Outcome.ret p => Outcome.ret p.2
  | RespCall.set_body body => set_body ndebug r body

/-- The response after a sequence of calls, with no write to the storage of a
key in between; the program stops at the first call that aborts. -/
def apply_calls (ndebug : Bool) (r : HttpResponse) : List RespCall → Outcome HttpResponse
  | [] => Outcome.ret r
  | c :: cs =>
    match apply_call ndebug r c with
    | Outcome.abort => Outcome.abort
    | Outcome.ret r1 => apply_calls ndebug r1 cs

/-- Construction of a response with status `code`, on a header array that holds
`headers0`, followed by a sequence of calls. -/
def construct_then (ndebug : Bool) (headers0 : List Header) (code : Int)
    (calls : List RespCall) : Outcome HttpResponse :=
  match HttpResponse.new ndebug headers0 code with
  | Outcome.abort => Outcome.abort
  | Outcome.ret r => apply_calls ndebug r calls

/-- The header array has its declared size, the count is within it, and no two
of the headers held have keys that `strcmp` finds equal. -/
def RespInv (r : HttpResponse) : Prop :=
  r.headers.length = MAX_HEADERS ∧ r.header_count ≤ MAX_HEADERS ∧
  ∀ j, j < r.header_count → ∀ i, i < j →
    strcmp (r.headers.getD i default).key (r.headers.getD j default).key ≠ 0

instance (r : HttpResponse) : Decidable (RespInv r) := by
  unfold RespInv; infer_instance

/-- The response `ex_resp` after `set_header("K", "v1")`. -/
def ex_resp_k : HttpResponse :=
  { ex_resp with
    headers := [{ key := bytes "Content-Type", value := bytes "text/plain" },
        { key := bytes "K", value := bytes "v1" }] ++ List.replicate 8 default,
    header_count := 2 }

/-- Nine calls `set_header("H0", "v")`, ..., `set_header("H8", "v")`. -/
def ex_full_calls : List RespCall :=
  (List.range 9).map (fun n => RespCall.set_header (some (bytes "H" ++ decimal n)) (bytes "v"))

/-- The response `ex_resp` after the calls of `ex_full_calls`: it holds ten
headers, none of them with the key "Content-Length". -/
def ex_resp_full : HttpResponse :=
  { ex_resp with
    headers := { key := bytes "Content-Type", value := bytes "text/plain" }
      :: (List.range 9).map (fun n => { key := bytes "H" ++ decimal n, value := bytes "v" }),
    header_count := 10 }

/-- Ten registrations with the uris "/r0", ..., "/r9". -/
def ex_ten_calls : List HttpRoute :=
  (List.range 10).map (fun n => { uri := bytes "/r" ++ decimal n, method := HttpMethod.GET, handler := n + 1 })

/-- The table after the ten registrations of `ex_ten_calls`: it is full. -/
def ex_table_full : HttpServer :=
  { routes := ex_ten_calls,
    route_hashes := ex_ten_calls.map (fun c => fnv1a_hash c.uri),
    route_count := 10 }

/-- The response `ex_resp` after `set_body("Hello, World!")`. -/
def ex_resp_hello : HttpResponse :=
  { ex_resp with
    headers := [{ key := bytes "Content-Type", value := bytes "text/plain" },
        { key := bytes "Content-Length", value := bytes "13" }] ++ List.replicate 8 default,
    header_count := 2,
    body_ := bytes "Hello, World!" }

/-! ## Reference definitions and further inputs -/

/-- The lookup as a plain linear scan, in the words of the specification: the
first slot below `route_count` whose method and full uri equal those of the
query, the stored hashes being ignored. -/
def find_route_plain (t : HttpServer) (uri : List Nat) (method : HttpMethod) : Option Nat :=
  (List.range t.route_count).find? (fun i =>
    (t.routes.getD i default).method == method && (t.routes.getD i default).uri == uri)

/-- The standard 32-bit FNV-1a hash in the words of the specification, from the
state `h`: each byte, taken as an unsigned value 0..255, is xor-ed into the
state, which is then multiplied by the prime 16777619 modulo `2 ^ 32`. -/
def fnv1a_standard_from (h : Nat) : List Nat → Nat
  | [] => h
  | b :: bs => fnv1a_standard_from (((h ^^^ (b % 256)) * 16777619) % 2 ^ 32) bs

/-- The standard 32-bit FNV-1a hash, started from the offset basis 2166136261. -/
def fnv1a_standard (data : List Nat) : Nat := fnv1a_standard_from 2166136261 data

/-- A table that holds the single route GET "costarring"; the uri "liquid" has
the same FNV-1a hash. -/
def ex_table_collision : HttpServer :=
  { routes := { uri := bytes "costarring", method := HttpMethod.GET, handler := 1 }
      :: List.replicate 9 default,
    route_hashes := fnv1a_hash (bytes "costarring") :: List.replicate 9 0,
    route_count := 1 }

/-- Eleven registrations with pairwise different uris: those of `ex_ten_calls`
and "/extra". -/
def ex_eleven_calls : List HttpRoute :=
  ex_ten_calls ++ [{ uri := bytes "/extra", method := HttpMethod.GET, handler := 11 }]

/-- Eleven headers with the pairwise different keys "H0", ..., "H10", all with
the value "v". -/
def ex_eleven_headers : List (List Nat × List Nat) :=
  (List.range 11).map (fun n => (bytes "H" ++ decimal n, bytes "v"))

/-- The first line of a request in the words of the specification: all bytes up
to and including the first "\r\n" (the bytes 13, 10), the whole input when it
has none. -/
def first_line : List Nat → List Nat
  | [] => []
  | b :: rest =>
    if b = 13 ∧ rest.head? = some 10 then [13, 10] else b :: first_line rest

/-! ## The connection and the dispatch of a request -/

/-- The value `ESP_OK` of `esp_err_t`. -/
def ESP_OK : Int := 0

/-- The value `ESP_FAIL` of `esp_err_t`. -/
def ESP_FAIL : Int := -1

/-- What happens on a connection: a `netconn_write` of some bytes, or the call of
a handler (given by its address) with the connection and a request. -/
inductive ConnEvent where
  | write (data : List Nat)
  | call (handler : Nat) (request : List Nat)
  deriving DecidableEq, Repr

/-- `netconn_write(conn, data, size, NETCONN_COPY)`; a connection is the record
of its events, oldest first. -/
def netconn_write (conn : List ConnEvent) (data : List Nat) : List ConnEvent :=
  conn ++ [ConnEvent.write data]

/-- `strlen(s)`: the number of bytes before the first NUL. -/
def strlen (s : List Nat) : Nat := (fmt_s s).length

/-- `HttpServer::send_404`. -/
def send_404 (conn : List ConnEvent) : List ConnEvent :=
  let resp_404 := bytes "HTTP/1.1 404 Not Found\r\nContent-Length: 0\r\n\r\n"
  netconn_write conn (resp_404.take (strlen resp_404))

/-- `HttpResponse::send`. -/
def HttpResponse.send (r : HttpResponse) (conn : List ConnEvent) : List ConnEvent :=
  netconn_write conn (build_response r)

/-- `HttpServer::handle_client`. `recv` is what `netconn_recv` and `netbuf_data`
deliver: `none` when `netconn_recv` fails, the bytes of the buffer otherwise.
`handlers` gives the behaviour of the function at an address: from the
connection and the request, the connection afterwards and the value returned.
The call through `route->handler` is recorded on the connection before the
handler runs. The result is the connection afterwards and the value returned. -/
def handle_client (handlers : Nat → List ConnEvent → List Nat → Outcome (List ConnEvent × Int))
    (t : HttpServer) (conn : List ConnEvent) (recv : Option (List Nat)) :
    Outcome (List ConnEvent × Int) :=
  match recv with
  | none => Outcome.ret (conn, ESP_FAIL)
  | some buf =>
    match parse_request_line buf with
    | none => Outcome.ret (send_404 conn, ESP_FAIL)
    | some (method, uri) =>
      match find_route t uri method with
      | some i =>
        let route := t.routes.getD i default
        if route.handler ≠ 0 then
          handlers route.handler (conn ++ [ConnEvent.call route.handler buf]) buf
        else Outcome.ret (send_404 conn, ESP_OK)
      | none => Outcome.ret (send_404 conn, ESP_OK)

/-- `hello_handler` of `example/main/example.cpp`; the header array of the local
response holds default entries. -/
def hello_handler (ndebug : Bool) (conn : List ConnEvent) (_request : List Nat) :
    Outcome (List ConnEvent × Int) :=
  match HttpResponse.new ndebug (List.replicate MAX_HEADERS default) 200 with
  | Outcome.abort => Outcome.abort
  | Outcome.ret resp =>
    match set_body ndebug resp (bytes "Hello, World!") with
    | Outcome.abort => Outcome.abort
    | Outcome.ret resp1 =>
      match set_header ndebug resp1 (some (bytes "Content-Type")) (bytes "text/plain") with
      | Outcome.abort => Outcome.abort
      | Outcome.ret p => Outcome.ret (HttpResponse.send p.2 conn, ESP_OK)

/-- `not_found_handler` of `example/main/example.cpp`. -/
def not_found_handler (ndebug : Bool) (conn : List ConnEvent) (_request : List Nat) :
    Outcome (List ConnEvent × Int) :=
  match HttpResponse.new ndebug (List.replicate MAX_HEADERS default) 404 with
  | Outcome.abort => Outcome.abort
  | Outcome.ret resp =>
    match set_body ndebug resp (bytes "404 Not Found") with
    | Outcome.abort => Outcome.abort
    | Outcome.ret resp1 =>
      match set_header ndebug resp1 (some (bytes "Content-Type")) (bytes "text/plain") with
      | Outcome.abort => Outcome.abort
      | Outcome.ret p => Outcome.ret (HttpResponse.send p.2 conn, ESP_OK)

/-- The address of `hello_handler` in the example program. -/
def hello_handler_addr : Nat := 1

/-- The address of `not_found_handler` in the example program. -/
def not_found_handler_addr : Nat := 2

/-- The functions of the example program by address; a call through any other
address does not return. -/
def example_handlers (ndebug : Bool) : Nat → List ConnEvent → List Nat → Outcome (List ConnEvent × Int)
  | 1 => hello_handler ndebug
  | 2 => not_found_handler ndebug
  | _ => fun _ _ => Outcome.abort

/-- The table of the example program after `add_route("/hello", GET,
hello_handler)` on the zero-initialised static `server`. -/
def example_table : HttpServer :=
  { routes := { uri := bytes "/hello", method := HttpMethod.GET, handler := hello_handler_addr }
      :: List.replicate 9 default,
    route_hashes := fnv1a_hash (bytes "/hello") :: List.replicate 9 0,
    route_count := 1 }

/-- A table whose only route, GET "/x", was registered with a null handler. -/
def ex_table_null_handler : HttpServer :=
  { routes := { uri := bytes "/x", method := HttpMethod.GET, handler := 0 }
      :: List.replicate 9 default,
    route_hashes := fnv1a_hash (bytes "/x") :: List.replicate 9 0,
    route_count := 1 }

/-! ## Calls interleaved with writes of the caller -/

/-- One step of a program that uses a route table: a call of `add_route`, or a
write of the caller to the storage that the `std::string_view` in slot `i`
refers to, after which the view reads `bytes`. -/
inductive TableStep where
  | add_route (uri : List Nat) (method : HttpMethod) (handler : Nat)
  | caller_write (i : Nat) (bytes : List Nat)
  deriving DecidableEq, Repr

/-- The table after the caller has written `bytes` to the storage the view in
slot `i` refers to: the view keeps its length, so `bytes` has that length, and
nothing else of the table changes, the stored hash included. -/
def caller_write (t : HttpServer) (i : Nat) (bytes : List Nat) : HttpServer :=
  if i < t.route_count ∧ bytes.length = (t.routes.getD i default).uri.length then
    { t with routes := t.routes.set i { t.routes.getD i default with uri := bytes } }
  else t

/-- A sequence of steps: the values the `add_route` calls return, in order, and
the table after the last step; the program stops at the first call that
aborts. -/
def run_table_steps (ndebug : Bool) (t : HttpServer) :
    List TableStep → Outcome (List Bool × HttpServer)
  | [] => Outcome.ret ([], t)
  | TableStep.add_route uri method handler :: rest =>
    match add_route ndebug t uri method handler with
    | Outcome.abort => Outcome.abort
    | Outcome.ret p =>
      match run_table_steps ndebug p.2 rest with
      | Outcome.abort => Outcome.abort
      | Outcome.ret q => Outcome.ret (p.1 :: q.1, q.2)
  | TableStep.caller_write i bytes :: rest => run_table_steps ndebug (caller_write t i bytes) rest

/-- The routes a sequence of steps registers, as they read at the time of their
`add_route` call, in the order of the calls. -/
def registrations : List TableStep → List HttpRoute
  | [] => []
  | TableStep.add_route uri method handler :: rest =>
    { uri := uri, method := method, handler := handler } :: registrations rest
  | TableStep.caller_write _ _ :: rest => registrations rest

/-- The table `t` holds the registrations `regs`, as many as fit: both arrays
have their declared size, and every slot below the count has the hash, the
method, the handler and the uri length of the registration at its position. -/
def TableTracks (t : HttpServer) (regs : List HttpRoute) : Prop :=
  t.routes.length = MAX_ROUTES ∧ t.route_hashes.length = MAX_ROUTES ∧
  t.route_count = min regs.length MAX_ROUTES ∧
  ∀ i, i < t.route_count →
    t.route_hashes.getD i 0 = fnv1a_hash (regs.getD i default).uri ∧
    (t.routes.getD i default).method = (regs.getD i default).method ∧
    (t.routes.getD i default).handler = (regs.getD i default).handler ∧
    (t.routes.getD i default).uri.length = (regs.getD i default).uri.length

/-- Three registrations through one buffer that the caller fills anew before
each call: "/r0", "/r1", "/r2". -/
def ex_reuse_steps : List TableStep :=
  [ TableStep.add_route (bytes "/r0") HttpMethod.GET 1,
    TableStep.caller_write 0 (bytes "/r1"),
    TableStep.add_route (bytes "/r1") HttpMethod.GET 2,
    TableStep.caller_write 0 (bytes "/r2"),
    TableStep.caller_write 1 (bytes "/r2"),
    TableStep.add_route (bytes "/r2") HttpMethod.GET 3 ]

/-- The table after `ex_reuse_steps`: the three views read "/r2", the hashes are
those of "/r0", "/r1" and "/r2". -/
def ex_table_reused : HttpServer :=
  { routes := [ { uri := bytes "/r2", method := HttpMethod.GET, handler := 1 },
        { uri := bytes "/r2", method := HttpMethod.GET, handler := 2 },
        { uri := bytes "/r2", method := HttpMethod.GET, handler := 3 } ]
      ++ List.replicate 7 default,
    route_hashes := [fnv1a_hash (bytes "/r0"), fnv1a_hash (bytes "/r1"), fnv1a_hash (bytes "/r2")]
      ++ List.replicate 7 0,
    route_count := 3 }

/-- The calls of `calls` as steps, with no write of the caller in between. -/
def add_steps (calls : List HttpRoute) : List TableStep :=
  calls.map (fun c => TableStep.add_route c.uri c.method c.handler)

/-- One step of a program that uses a response: a call of a member function, or
a write of the caller to the storage that the key pointer in slot `i` points
to, after which the pointer reads the string `key`. -/
inductive RespStep where
  | call (c : RespCall)
  | caller_write (i : Nat) (key : List Nat)
  deriving DecidableEq, Repr

/-- The response after the caller has written the string `key` to the storage
the key pointer of header `i` points to; nothing else of the response
changes. -/
def caller_write_key (r : HttpResponse) (i : Nat) (key : List Nat) : HttpResponse :=
  if i < r.header_count then
    { r with headers := r.headers.set i { r.headers.getD i default with key := key } }
  else r

/-- A sequence of steps: the values the `set_header` calls return, in order, and
the response after the last step; the program stops at the first call that
aborts. -/
def run_resp_steps (ndebug : Bool) (r : HttpResponse) :
    List RespStep → Outcome (List Bool × HttpResponse)
  | [] => Outcome.ret ([], r)
  | RespStep.call (RespCall.set_status code) :: rest =>
    run_resp_steps ndebug (set_status r code) rest
  | RespStep.call (RespCall.set_header key value) :: rest =>
    match set_header ndebug r key value with
    | Outcome.abort => Outcome.abort
    | Outcome.ret p =>
      match run_resp_steps ndebug p.2 rest with
      | Outcome.abort => Outcome.abort
      | Outcome.ret q => Outcome.ret (p.1 :: q.1, q.2)
  | RespStep.call (RespCall.set_body body) :: rest =>
    match set_body ndebug r body with
    | Outcome.abort => Outcome.abort
    | Outcome.ret r1 => run_resp_steps ndebug r1 rest
  | RespStep.caller_write i key :: rest =>
    run_resp_steps ndebug (caller_write_key r i key) rest

/-- Construction of a response with status `code`, on a header array that holds
`headers0`, followed by a sequence of steps. -/
def construct_then_steps (ndebug : Bool) (headers0 : List Header) (code : Int)
    (steps : List RespStep) : Outcome (List Bool × HttpResponse) :=
  match HttpResponse.new ndebug headers0 code with
  | Outcome.abort => Outcome.abort
  | Outcome.ret r => run_resp_steps ndebug r steps

/-- One `set_header` call per (key, value) pair, with no write of the caller in
between. -/
def header_steps (kvs : List (List Nat × List Nat)) : List RespStep :=
  kvs.map (fun kv => RespStep.call (RespCall.set_header (some kv.1) kv.2))

/-- The caller passes the key "A" in a buffer, then the key "B", and then writes
"B" to the buffer. -/
def ex_dup_steps : List RespStep :=
  [ RespStep.call (RespCall.set_header (some (bytes "A")) (bytes "1")),
    RespStep.call (RespCall.set_header (some (bytes "B")) (bytes "2")),
    RespStep.caller_write 1 (bytes "B") ]

/-- The response after `ex_dup_steps`: the keys read "Content-Type", "B", "B". -/
def ex_resp_dup : HttpResponse :=
  { ex_resp with
    headers := [{ key := bytes "Content-Type", value := bytes "text/plain" },
        { key := bytes "B", value := bytes "1" },
        { key := bytes "B", value := bytes "2" }] ++ List.replicate 7 default,
    header_count := 3 }

/-- Two `set_header` calls with the keys "H0" and "H1", passed in one buffer that
the caller fills anew before the second call. -/
def ex_key_reuse_steps : List RespStep :=
  [ RespStep.call (RespCall.set_header (some (bytes "H0")) (bytes "v")),
    RespStep.caller_write 1 (bytes "H1"),
    RespStep.call (RespCall.set_header (some (bytes "H1")) (bytes "w")) ]

/-- The response after `ex_key_reuse_steps`: it holds two headers. -/
def ex_resp_key_reuse : HttpResponse :=
  { ex_resp with
    headers := [{ key := bytes "Content-Type", value := bytes "text/plain" },
        { key := bytes "H1", value := bytes "w" }] ++ List.replicate 8 default,
    header_count := 2 }

/-- Four of the headers "H0", ..., "H10". -/
def ex_headers_pre : List (List Nat × List Nat) := ex_eleven_headers.take 4

/-- Five more of the headers "H0", ..., "H10". -/
def ex_headers_post : List (List Nat × List Nat) := (ex_eleven_headers.drop 4).take 5

/-! ## Lemmas on the route table -/

theorem add_route_full (ndebug : Bool) (t : HttpServer) (uri : List Nat) (method : HttpMethod)
    (handler : Nat) (h : MAX_ROUTES ≤ t.route_count) :
    add_route ndebug t uri method handler
      = if ndebug then Outcome.ret (false, t) else Outcome.abort := by
  cases ndebug <;> simp [add_route, c_assert, h]

theorem add_route_free (ndebug : Bool) (t : HttpServer) (uri : List Nat) (method : HttpMethod)
    (handler : Nat) (h : t.route_count < MAX_ROUTES) :
    add_route ndebug t uri method handler
      = Outcome.ret (true,
          { routes := t.routes.set t.route_count { uri := uri, method := method, handler := handler },
            route_hashes := t.route_hashes.set t.route_count (fnv1a_hash uri),
            route_count := t.route_count + 1 }) := by
  simp [add_route, Nat.not_le.mpr h]

theorem getD_set_same {α : Type} (l : List α) (n : Nat) (a d : α) (h : n < l.length) :
    (l.set n a).getD n d = a := by
  simp [List.getD_eq_getElem?_getD, List.getElem?_set, h]

theorem getD_set_other {α : Type} (l : List α) (n i : Nat) (a d : α) (h : i ≠ n) :
    (l.set n a).getD i d = l.getD i d := by
  simp [List.getD_eq_getElem?_getD, List.getElem?_set, Ne.symm h]

theorem find_route_some_iff (t : HttpServer) (hinv : TableInv t) (uri : List Nat)
    (method : HttpMethod) (i : Nat) :
    find_route t uri method = some i ↔
      i < t.route_count ∧ slot_matches t uri method i ∧
        ∀ j, j < i → ¬ slot_matches t uri method j := by
  obtain ⟨_, _, _, hhash⟩ := hinv
  unfold find_route
  by_cases h0 : t.route_count = 0
  · simp [h0]
  · simp only [h0, if_false, List.find?_range_eq_some, List.mem_range, slot_matches,
      Bool.and_eq_true, beq_iff_eq, Bool.not_eq_eq_eq_not, Bool.not_true, Bool.and_eq_false_iff,
      beq_eq_false_iff_ne]
    constructor
    · rintro ⟨hp, hi, hlt⟩
      refine ⟨hi, ⟨hp.2, hp.1.2⟩, ?_⟩
      intro j hj hm
      have hj2 := hhash j (by omega)
      rw [hm.1] at hj2
      rcases hlt j hj with (h1 | h1) | h1
      · exact h1 hj2
      · exact h1 hm.2
      · exact h1 hm.1
    · rintro ⟨hi, hm, hlt⟩
      have hi2 := hhash i hi
      rw [hm.1] at hi2
      refine ⟨⟨⟨hi2, hm.2⟩, hm.1⟩, hi, ?_⟩
      intro j hj
      have := hlt j hj
      by_cases hu : (t.routes.getD j default).uri = uri
      · by_cases hm2 : (t.routes.getD j default).method = method
        · exact absurd ⟨hu, hm2⟩ this
        · exact Or.inl (Or.inr hm2)
      · exact Or.inr hu

theorem find_route_none_iff (t : HttpServer) (hinv : TableInv t) (uri : List Nat)
    (method : HttpMethod) :
    find_route t uri method = none ↔ ∀ j, j < t.route_count → ¬ slot_matches t uri method j := by
  cases hf : find_route t uri method with
  | none =>
    simp only [true_iff]
    intro j hj hm
    -- the least matching index would be returned
    have hex : ∃ k, k < t.route_count ∧ slot_matches t uri method k := ⟨j, hj, hm⟩
    classical
    let k := Nat.find hex
    have hk := Nat.find_spec hex
    have hmin : ∀ l, l < k → ¬ slot_matches t uri method l := by
      intro l hl hml
      exact Nat.find_min hex hl ⟨by omega, hml⟩
    have := (find_route_some_iff t hinv uri method k).2 ⟨hk.1, hk.2, hmin⟩
    rw [hf] at this
    simp at this
  | some i =>
    simp only [false_iff, reduceCtorEq]
    intro hall
    have := (find_route_some_iff t hinv uri method i).1 hf
    exact hall i this.1 this.2.1

theorem stored_getElem? (t : HttpServer) (hinv : TableInv t) (i : Nat) (hi : i < t.route_count) :
    (stored t)[i]? = some (t.routes.getD i default) := by
  have hlen : i < t.routes.length := by have := hinv.1; have := hinv.2.2.1; omega
  simp only [stored, List.getElem?_take, hi, if_true, List.getD_eq_getElem?_getD]
  rw [List.getElem?_eq_getElem hlen]
  rfl

theorem stored_length (t : HttpServer) (hinv : TableInv t) : (stored t).length = t.route_count := by
  have := hinv.1; have := hinv.2.2.1
  simp only [stored, List.length_take]; omega

/-! ## Lemmas on the C library functions -/

theorem strncmp_eq_zero_iff (n : Nat) :
    ∀ a b : List Nat, n ≤ b.length → (∀ x ∈ b.take n, x ≠ 0) →
      (strncmp a b n = 0 ↔ a.take n = b.take n) := by
  induction n with
  | zero => intro a b _ _; simp [strncmp]
  | succ n ih =>
    intro a b hlen hnz
    cases b with
    | nil => simp at hlen
    | cons y b1 =>
      have hy : y ≠ 0 := hnz y (by simp)
      have hnz1 : ∀ x ∈ b1.take n, x ≠ 0 := fun x hx => hnz x (by simp [hx])
      have hlen1 : n ≤ b1.length := by simpa using hlen
      cases a with
      | nil =>
        have : (0 : Int) - (y : Int) ≠ 0 := by omega
        simp [strncmp, Ne.symm hy, hy, this]
      | cons x a1 =>
        by_cases hxy : x = y
        · subst hxy
          simp [strncmp, hy, ih a1 b1 hlen1 hnz1]
        · have : (x : Int) - (y : Int) ≠ 0 := by omega
          simp [strncmp, hxy, this]

theorem take_eq_iff_prefix (p req : List Nat) :
    req.take p.length = p ↔ p <+: req := by
  constructor
  · intro h; rw [← h]; exact List.take_prefix _ _
  · rintro ⟨s, rfl⟩; simp

theorem strncmp_GET (req : List Nat) :
    strncmp req (bytes "GET ") 4 = 0 ↔ bytes "GET " <+: req := by
  rw [strncmp_eq_zero_iff 4 req (bytes "GET ") (by decide) (by decide)]
  exact take_eq_iff_prefix (bytes "GET ") req

theorem strncmp_POST (req : List Nat) :
    strncmp req (bytes "POST ") 5 = 0 ↔ bytes "POST " <+: req := by
  rw [strncmp_eq_zero_iff 5 req (bytes "POST ") (by decide) (by decide)]
  exact take_eq_iff_prefix (bytes "POST ") req

theorem memchr_none_iff (s : List Nat) (c : Nat) :
    memchr s c s.length = none ↔ c ∉ s := by
  simp only [memchr, List.take_length]
  constructor
  · intro h hc
    have : List.findIdx (fun b => b == c) s < s.length :=
      List.findIdx_lt_length_of_exists ⟨c, hc, by simp⟩
    simp [this] at h
  · intro hc
    have : List.findIdx (fun b => b == c) s = s.length :=
      List.findIdx_eq_length_of_false (by
        intro x hx
        simp only [beq_eq_false_iff_ne]
        rintro rfl
        exact hc hx)
    simp [this]

theorem memchr_some (s : List Nat) (c e : Nat) (h : memchr s c s.length = some e) :
    s = s.take e ++ c :: s.drop (e + 1) ∧ c ∉ s.take e := by
  simp only [memchr, List.take_length] at h
  by_cases hlt : List.findIdx (fun b => b == c) s < s.length
  · simp only [hlt, if_true, Option.some.injEq] at h
    subst h
    have hget : s[List.findIdx (fun b => b == c) s] = c := by
      have := List.findIdx_getElem (w := hlt)
      simpa using this
    constructor
    · conv_lhs => rw [← List.take_append_drop (List.findIdx (fun b => b == c) s) s]
      rw [List.drop_eq_getElem_cons hlt, hget]
    · intro hmem
      obtain ⟨j, hj, hjc⟩ := List.getElem_of_mem hmem
      simp only [List.length_take] at hj
      have hj2 : j < List.findIdx (fun b => b == c) s := by omega
      have := List.not_of_lt_findIdx hj2
      simp only [List.getElem_take] at hjc
      simp [hjc] at this
  · simp [hlt] at h

/-! ## The request-line parser -/

theorem parse_request_line_eq (req : List Nat) :
    parse_request_line req =
      if req.length < 5 then none
      else if bytes "GET " <+: req then
        (memchr (req.drop 4) 32 (req.drop 4).length).map
          (fun e => (HttpMethod.GET, (req.drop 4).take e))
      else if bytes "POST " <+: req then
        (memchr (req.drop 5) 32 (req.drop 5).length).map
          (fun e => (HttpMethod.POST, (req.drop 5).take e))
      else none := by
  unfold parse_request_line
  simp only [strncmp_GET, strncmp_POST, List.length_drop]
  split
  · rfl
  · split
    · cases memchr (List.drop 4 req) 32 (req.length - 4) <;> rfl
    · split
      · cases memchr (List.drop 5 req) 32 (req.length - 5) <;> rfl
      · rfl

theorem drop_of_prefix (p req : List Nat) (h : p <+: req) : req = p ++ req.drop p.length := by
  obtain ⟨s, rfl⟩ := h
  simp

/-- C2: when `parse_request_line` succeeds with `(method, uri)`, the input is the
method name, a space, the uri, a space and some rest, and the uri has no space
byte in it. -/
theorem parse_request_line_sound (req : List Nat) (method : HttpMethod) (uri : List Nat)
    (h : parse_request_line req = some (method, uri)) :
    (∃ rest, req = method_to_str method ++ bytes " " ++ uri ++ bytes " " ++ rest) ∧ 32 ∉ uri := by
  rw [parse_request_line_eq] at h
  split at h
  · simp at h
  · split at h
    · rename_i hpre
      simp only [Option.map_eq_some', Prod.mk.injEq] at h
      obtain ⟨e, he, hm, hu⟩ := h
      obtain ⟨hsplit, hno⟩ := memchr_some _ _ _ he
      subst hm; subst hu
      refine ⟨⟨(req.drop 4).drop (e + 1), ?_⟩, hno⟩
      have h1 := drop_of_prefix _ _ hpre
      have h4 : (bytes "GET ").length = 4 := by decide
      rw [h4] at h1
      have h2 : method_to_str HttpMethod.GET ++ bytes " " = bytes "GET " := by decide
      have h3 : bytes " " = [32] := by decide
      rw [h2, h3, List.append_assoc, List.append_assoc, List.singleton_append, ← hsplit]
      exact h1
    · split at h
      · rename_i hpre
        simp only [Option.map_eq_some', Prod.mk.injEq] at h
        obtain ⟨e, he, hm, hu⟩ := h
        obtain ⟨hsplit, hno⟩ := memchr_some _ _ _ he
        subst hm; subst hu
        refine ⟨⟨(req.drop 5).drop (e + 1), ?_⟩, hno⟩
        have h1 := drop_of_prefix _ _ hpre
        have h4 : (bytes "POST ").length = 5 := by decide
        rw [h4] at h1
        have h2 : method_to_str HttpMethod.POST ++ bytes " " = bytes "POST " := by decide
        have h3 : bytes " " = [32] := by decide
        rw [h2, h3, List.append_assoc, List.append_assoc, List.singleton_append, ← hsplit]
        exact h1
      · simp at h

/-- Witness of C2: the two request lines of the specification. -/
theorem parse_request_line_sound_witness :
    parse_request_line (bytes "GET /hello HTTP/1.1\r\n") = some (HttpMethod.GET, bytes "/hello") ∧
      parse_request_line (bytes "POST /submit HTTP/1.1") = some (HttpMethod.POST, bytes "/submit") ∧
      ((∃ rest, bytes "GET /hello HTTP/1.1\r\n"
          = method_to_str HttpMethod.GET ++ bytes " " ++ bytes "/hello" ++ bytes " " ++ rest) ∧
        32 ∉ bytes "/hello") :=
  ⟨by decide, by decide,
    parse_request_line_sound (bytes "GET /hello HTTP/1.1\r\n") HttpMethod.GET (bytes "/hello")
      (by decide)⟩

/-- C3: `parse_request_line` fails exactly when the input has fewer than 5 bytes,
or starts with neither "GET " nor "POST ", or has no space byte after the method
prefix it starts with. -/
theorem parse_request_line_fails_iff (req : List Nat) :
    parse_request_line req = none ↔
      req.length < 5 ∨ (¬ bytes "GET " <+: req ∧ ¬ bytes "POST " <+: req) ∨
        (bytes "GET " <+: req ∧ 32 ∉ req.drop 4) ∨ (bytes "POST " <+: req ∧ 32 ∉ req.drop 5) := by
  have hexcl : bytes "GET " <+: req → ¬ bytes "POST " <+: req := by
    rintro ⟨s, rfl⟩ ⟨u, hu⟩
    have hG : bytes "GET " = [71, 69, 84, 32] := by decide
    have hP : bytes "POST " = [80, 79, 83, 84, 32] := by decide
    rw [hG, hP] at hu
    simp at hu
  rw [parse_request_line_eq]
  by_cases hlen : req.length < 5
  · simp [hlen]
  · by_cases hget : bytes "GET " <+: req
    · simp only [hlen, if_false, hget, if_true, Option.map_eq_none', memchr_none_iff,
        false_or, not_true_eq_false, false_and, true_and, hexcl hget, or_false]
    · by_cases hpost : bytes "POST " <+: req
      · simp only [hlen, if_false, hget, hpost, if_true, Option.map_eq_none', memchr_none_iff,
          false_or, not_true_eq_false, false_and, true_and, and_false]
      · simp [hlen, hget, hpost]

/-- Witness of C3: the failing request lines of the specification, and other
verbs and a lower-case verb. -/
theorem parse_request_line_fails_witness :
    parse_request_line (bytes "DELETE /x HTTP/1.1") = none ∧
      parse_request_line (bytes "GET") = none ∧
      parse_request_line (bytes "HEAD / HTTP/1.1") = none ∧
      parse_request_line (bytes "PUT /x HTTP/1.1") = none ∧
      parse_request_line (bytes "OPTIONS * HTTP/1.1") = none ∧
      parse_request_line (bytes "get / HTTP/1.1") = none ∧
      parse_request_line (bytes "GET /no-space-after-uri") = none :=
  ⟨(parse_request_line_fails_iff _).2 (Or.inr (Or.inl (by decide))),
    (parse_request_line_fails_iff _).2 (Or.inl (by decide)),
    by decide, by decide, by decide, by decide,
    (parse_request_line_fails_iff _).2 (Or.inr (Or.inr (Or.inl (by decide))))⟩

/-! ## The response serializer -/

theorem append_fmt_eq (buf out : List Nat) :
    append_fmt buf out =
      if buf.length + out.length < BUFFER_SIZE then some (buf ++ out) else none := by
  unfold append_fmt snprintf_ret
  by_cases hbig : out.length > INT_MAX
  · have : ¬ buf.length + out.length < BUFFER_SIZE := by
      simp only [INT_MAX, BUFFER_SIZE] at *; omega
    simp [hbig, this]
  · by_cases hfit : buf.length + out.length < BUFFER_SIZE
    · have h1 : ¬ (out.length ≥ BUFFER_SIZE - buf.length) := by omega
      simp only [hbig, if_false, Int.toNat_ofNat, hfit, if_true]
      rw [if_neg]
      rintro (h | h)
      · omega
      · exact h1 h
    · have h1 : out.length ≥ BUFFER_SIZE - buf.length := by omega
      simp only [hbig, if_false, Int.toNat_ofNat, hfit]
      rw [if_pos (Or.inr h1)]

theorem foldlM_append_fmt (l : List Header) :
    ∀ buf : List Nat, buf.length < BUFFER_SIZE →
      l.foldlM (fun b h => append_fmt b (header_line h)) buf =
        if buf.length + (l.flatMap header_line).length < BUFFER_SIZE
        then some (buf ++ l.flatMap header_line) else none := by
  induction l with
  | nil => intro buf h; simp [h]
  | cons h t ih =>
    intro buf hbuf
    rw [List.foldlM_cons, append_fmt_eq]
    simp only [List.flatMap_cons, List.length_append]
    by_cases h1 : buf.length + (header_line h).length < BUFFER_SIZE
    · simp only [h1, if_true, Option.bind_eq_bind, Option.some_bind]
      rw [ih _ (by simpa using h1)]
      simp only [List.length_append, List.append_assoc, Nat.add_assoc]
    · have h2 : ¬ buf.length + ((header_line h).length + (List.flatMap t header_line).length)
          < BUFFER_SIZE := by omega
      simp only [h1, if_false, Option.bind_eq_bind, Option.none_bind]
      rw [if_neg h2]

theorem foldlM_headers (r : HttpResponse) (buf : List Nat) :
    (List.range r.header_count).foldlM
        (fun buf i => append_fmt buf (header_line (r.headers.getD i default))) buf
      = (active_headers r).foldlM (fun b h => append_fmt b (header_line h)) buf := by
  unfold active_headers
  rw [List.foldlM_map]

theorem formatted_length (r : HttpResponse) :
    (formatted r).length = (status_line r.status_code).length
      + ((active_headers r).flatMap header_line).length + 2 + r.body_.length := by
  have hcrlf : (bytes "\r\n").length = 2 := by decide
  simp only [formatted, List.length_append, hcrlf]

theorem build_response_eq (r : HttpResponse) :
    build_response r = if (formatted r).length < BUFFER_SIZE then formatted r else [] := by
  have hcrlf : (bytes "\r\n").length = 2 := by decide
  rw [formatted_length]
  unfold build_response
  rw [append_fmt_eq]
  simp only [List.length_nil, Nat.zero_add, List.nil_append]
  by_cases h1 : (status_line r.status_code).length < BUFFER_SIZE
  · simp only [h1, if_true]
    rw [foldlM_headers, foldlM_append_fmt _ _ h1]
    by_cases h2 : (status_line r.status_code).length
        + ((active_headers r).flatMap header_line).length < BUFFER_SIZE
    · simp only [h2, if_true, List.length_append, hcrlf]
      by_cases h3 : (status_line r.status_code).length
          + ((active_headers r).flatMap header_line).length + 2 ≥ BUFFER_SIZE
      · rw [if_pos h3, if_neg (by omega)]
      · rw [if_neg h3]
        by_cases h4 : (status_line r.status_code).length
            + ((active_headers r).flatMap header_line).length + 2 + r.body_.length ≥ BUFFER_SIZE
        · rw [if_pos h4, if_neg (by omega)]
        · rw [if_neg h4, if_pos (by omega)]
          rfl
    · simp only [h2, if_false]
      rw [if_neg (by omega)]
  · simp only [h1, if_false]
    rw [if_neg (by omega)]

theorem fmt_s_of_no_nul (s : List Nat) (h : 0 ∉ s) : fmt_s s = s := by
  unfold fmt_s
  rw [List.takeWhile_eq_self_iff]
  intro x hx
  simp only [bne_iff_ne, ne_eq]
  rintro rfl
  exact h hx

theorem fmt_s_status_text (code : Int) : fmt_s (status_text code) = spec_reason code := by
  unfold status_text spec_reason
  by_cases h200 : code = 200
  · simp only [h200, if_true]; decide
  · by_cases h404 : code = 404
    · subst h404; decide
    · by_cases h400 : code = 400
      · subst h400; decide
      · by_cases h500 : code = 500
        · subst h500; decide
        · simp only [h200, h404, h400, h500, if_false]; decide

theorem flatMap_header_line (hs : List Header) (h : ∀ x ∈ hs, 0 ∉ x.key ∧ 0 ∉ x.value) :
    hs.flatMap header_line
      = hs.flatMap (fun x => x.key ++ bytes ": " ++ x.value ++ bytes "\r\n") := by
  induction hs with
  | nil => rfl
  | cons a t ih =>
    have ha := h a (by simp)
    simp only [List.flatMap_cons]
    rw [ih (fun x hx => h x (by simp [hx]))]
    simp only [header_line, fmt_s_of_no_nul _ ha.1, fmt_s_of_no_nul _ ha.2]

theorem formatted_eq_spec (r : HttpResponse)
    (h : ∀ x ∈ active_headers r, 0 ∉ x.key ∧ 0 ∉ x.value) :
    formatted r = spec_serialization r := by
  unfold formatted spec_serialization status_line
  rw [flatMap_header_line _ h, fmt_s_status_text]

theorem formatted_ne_nil (r : HttpResponse) : formatted r ≠ [] := by
  intro h
  have hlen := congrArg List.length h
  have h9 : (bytes "HTTP/1.1 ").length = 9 := by decide
  simp only [formatted, status_line, List.length_append, h9, List.length_nil] at hlen
  omega

set_option maxRecDepth 100000 in
/-- Counterexample to C4 as stated: a header value with a NUL byte in it is
written only up to that byte, so the result is neither empty nor the full
serialization. -/
theorem build_response_nul_value :
    HttpResponse.new false (List.replicate 10 default) 200 = Outcome.ret ex_resp ∧
      set_header false ex_resp (some (bytes "X")) [97, 0, 98] = Outcome.ret (true, ex_resp_nul) ∧
      build_response ex_resp_nul
        = bytes "HTTP/1.1 200 OK\r\nContent-Type: text/plain\r\nX: a\r\n\r\n" ∧
      ¬ (build_response ex_resp_nul = [] ∨
          build_response ex_resp_nul = spec_serialization ex_resp_nul) := by
  refine ⟨by decide, by decide, by decide, by decide⟩

/-- C4, amended: `build_response` returns either the empty string or the complete
status line, header lines in insertion order, blank line and body, where every
header key and value is written as a C string (up to its first NUL byte); with no
NUL byte in the keys and values that is the full serialization of the
specification. -/
theorem build_response_empty_or_full (r : HttpResponse) :
    (build_response r = [] ∨
      build_response r =
        bytes "HTTP/1.1 " ++ fmt_d r.status_code ++ bytes " " ++ spec_reason r.status_code
          ++ bytes "\r\n"
          ++ (active_headers r).flatMap
              (fun h => fmt_s h.key ++ bytes ": " ++ fmt_s h.value ++ bytes "\r\n")
          ++ bytes "\r\n" ++ r.body_) ∧
    ((∀ h ∈ active_headers r, 0 ∉ h.key ∧ 0 ∉ h.value) →
      (build_response r = [] ∨ build_response r = spec_serialization r)) := by
  have hform : formatted r =
      bytes "HTTP/1.1 " ++ fmt_d r.status_code ++ bytes " " ++ spec_reason r.status_code
          ++ bytes "\r\n"
          ++ (active_headers r).flatMap
              (fun h => fmt_s h.key ++ bytes ": " ++ fmt_s h.value ++ bytes "\r\n")
          ++ bytes "\r\n" ++ r.body_ := by
    unfold formatted status_line
    rw [fmt_s_status_text]
    rfl
  have hdich : build_response r = [] ∨ build_response r = formatted r := by
    rw [build_response_eq]
    by_cases h : (formatted r).length < BUFFER_SIZE
    · exact Or.inr (if_pos h)
    · exact Or.inl (if_neg h)
  refine ⟨?_, ?_⟩
  · rw [← hform]; exact hdich
  · intro hnul
    rw [← formatted_eq_spec r hnul]; exact hdich

set_option maxRecDepth 100000 in
/-- Witness of C4: the response of the specification's example, and a response
that does not fit. -/
theorem build_response_empty_or_full_witness :
    build_response (ex_resp_body 13)
        = bytes "HTTP/1.1 200 OK\r\nContent-Type: text/plain\r\nContent-Length: 13\r\n\r\nAAAAAAAAAAAAA" ∧
      build_response (ex_resp_body 13) = spec_serialization (ex_resp_body 13) ∧
      build_response (ex_resp_body 1100) = [] ∧
      (build_response (ex_resp_body 13) = [] ∨
        build_response (ex_resp_body 13) = spec_serialization (ex_resp_body 13)) :=
  ⟨by decide, by decide, by decide,
    (build_response_empty_or_full (ex_resp_body 13)).2 (by decide)⟩

set_option maxRecDepth 100000 in
/-- Counterexample to C5 as stated: with a header value that starts with a NUL
byte the full serialization has more than 1024 bytes, and `build_response`
returns a non-empty string in which the value is cut off. -/
theorem build_response_long_nul_value :
    set_header false ex_resp (some (bytes "X")) (0 :: List.replicate 1100 97)
        = Outcome.ret (true, ex_resp_nul_long) ∧
      (spec_serialization ex_resp_nul_long).length > 1024 ∧
      build_response ex_resp_nul_long
        = bytes "HTTP/1.1 200 OK\r\nContent-Type: text/plain\r\nX: \r\n\r\n" ∧
      build_response ex_resp_nul_long ≠ [] := by
  refine ⟨by decide, by decide, by decide, by decide⟩

/-- C5, amended: a response whose serialization, with every header key and value
taken as a C string (up to its first NUL byte), is longer than 1024 bytes makes
`build_response` return the empty string; with no NUL byte in the keys and
values this is the full serialization of the specification. -/
theorem build_response_overflow (r : HttpResponse) :
    ((formatted r).length > 1024 → build_response r = []) ∧
    ((∀ h ∈ active_headers r, 0 ∉ h.key ∧ 0 ∉ h.value) →
      (spec_serialization r).length > 1024 → build_response r = []) := by
  have h1 : (formatted r).length > 1024 → build_response r = [] := by
    intro h
    rw [build_response_eq, if_neg]
    simp only [BUFFER_SIZE]; omega
  refine ⟨h1, ?_⟩
  intro hnul hlen
  rw [← formatted_eq_spec r hnul] at hlen
  exact h1 hlen

set_option maxRecDepth 100000 in
/-- Witness of C5: a body that crosses the limit, and a header that crosses it. -/
theorem build_response_overflow_witness :
    (spec_serialization (ex_resp_body 1100)).length > 1024 ∧
      build_response (ex_resp_body 1100) = [] ∧
      (spec_serialization ex_resp_long_value).length > 1024 ∧
      build_response ex_resp_long_value = [] :=
  ⟨by decide, (build_response_overflow (ex_resp_body 1100)).2 (by decide) (by decide),
    by decide, (build_response_overflow ex_resp_long_value).1 (by decide)⟩

set_option maxRecDepth 100000 in
/-- Counterexample to C6 as stated: after `set_body` with 958 bytes the full
serialization has exactly 1024 bytes, and `build_response` returns the empty
string; and with a NUL byte in a header value the full serialization has fewer
than 1024 bytes and is not what `build_response` returns. -/
theorem build_response_exactly_1024 :
    set_body false ex_resp (List.replicate 958 65) = Outcome.ret (ex_resp_body 958) ∧
      (spec_serialization (ex_resp_body 958)).length = 1024 ∧
      build_response (ex_resp_body 958) = [] ∧
      (spec_serialization ex_resp_nul).length ≤ 1024 ∧
      build_response ex_resp_nul ≠ spec_serialization ex_resp_nul := by
  refine ⟨by decide, by decide, by decide, by decide, by decide⟩

/-- C6, amended: a response whose serialization, with every header key and value
taken as a C string, is at most 1023 bytes long makes `build_response` return
that serialization, which is not empty; it returns the empty string exactly when
that serialization has 1024 bytes or more. -/
theorem build_response_fits (r : HttpResponse) :
    ((formatted r).length ≤ 1023 → build_response r = formatted r ∧ build_response r ≠ []) ∧
    (build_response r = [] ↔ 1024 ≤ (formatted r).length) ∧
    ((∀ h ∈ active_headers r, 0 ∉ h.key ∧ 0 ∉ h.value) →
      (spec_serialization r).length ≤ 1023 →
        build_response r = spec_serialization r ∧ build_response r ≠ []) := by
  have h1 : (formatted r).length ≤ 1023 →
      build_response r = formatted r ∧ build_response r ≠ [] := by
    intro h
    have hb : build_response r = formatted r := by
      rw [build_response_eq, if_pos]
      simp only [BUFFER_SIZE]; omega
    exact ⟨hb, by rw [hb]; exact formatted_ne_nil r⟩
  refine ⟨h1, ?_, ?_⟩
  · constructor
    · intro he
      by_contra hlt
      exact (h1 (by omega)).2 he
    · intro h
      rw [build_response_eq, if_neg]
      simp only [BUFFER_SIZE]; omega
  · intro hnul hlen
    rw [← formatted_eq_spec r hnul] at hlen ⊢
    exact h1 hlen

set_option maxRecDepth 100000 in
/-- Witness of C6: after `set_body` with 957 bytes the serialization has exactly
1023 bytes and is returned. -/
theorem build_response_fits_witness :
    set_body false ex_resp (List.replicate 957 65) = Outcome.ret (ex_resp_body 957) ∧
      (spec_serialization (ex_resp_body 957)).length = 1023 ∧
      build_response (ex_resp_body 957) = spec_serialization (ex_resp_body 957) ∧
      build_response (ex_resp_body 957) ≠ [] :=
  ⟨by decide, by decide,
    ((build_response_fits (ex_resp_body 957)).2.2 (by decide) (by decide)).1,
    ((build_response_fits (ex_resp_body 957)).2.2 (by decide) (by decide)).2⟩

/-! ## The header list -/

theorem strncmp_fuel (n : Nat) :
    ∀ a b : List Nat, a.length < n → b.length < n →
      (strncmp a b n = 0 ↔ fmt_s a = fmt_s b) := by
  induction n with
  | zero => intro a b ha; omega
  | succ n ih =>
    intro a b ha hb
    cases a with
    | nil =>
      cases b with
      | nil => simp [strncmp, fmt_s]
      | cons y b1 =>
        by_cases hy : y = 0
        · subst hy; simp [strncmp, fmt_s]
        · have : (0 : Int) - (y : Int) ≠ 0 := by omega
          simp [strncmp, fmt_s, hy, Ne.symm hy, this]
    | cons x a1 =>
      cases b with
      | nil =>
        by_cases hx : x = 0
        · subst hx; simp [strncmp, fmt_s]
        · have : (x : Int) - 0 ≠ 0 := by omega
          simp [strncmp, fmt_s, hx, this]
      | cons y b1 =>
        have ha1 : a1.length < n := by simpa using ha
        have hb1 : b1.length < n := by simpa using hb
        by_cases hxy : x = y
        · subst hxy
          by_cases hx : x = 0
          · subst hx; simp [strncmp, fmt_s]
          · have := ih a1 b1 ha1 hb1
            simp only [fmt_s] at this
            simp [strncmp, fmt_s, hx, this]
        · have hne : (x : Int) - (y : Int) ≠ 0 := by omega
          by_cases hx : x = 0
          · subst hx
            have hy : y ≠ 0 := fun h => hxy h.symm
            simp [strncmp, fmt_s, hy, hxy, hne]
          · by_cases hy : y = 0
            · subst hy; simp [strncmp, fmt_s, hx, hne]
            · simp [strncmp, fmt_s, hx, hy, hxy, hne]

theorem strcmp_eq_zero_iff (a b : List Nat) : strcmp a b = 0 ↔ fmt_s a = fmt_s b := by
  unfold strcmp
  exact strncmp_fuel _ a b (by omega) (by omega)

theorem set_header_found (ndebug : Bool) (r : HttpResponse) (k value : List Nat) (i : Nat)
    (h : (List.range r.header_count).find?
      (fun i => strcmp (r.headers.getD i default).key k == 0) = some i) :
    set_header ndebug r (some k) value
      = Outcome.ret (true,
          { r with headers := r.headers.set i { r.headers.getD i default with value := value } }) := by
  simp only [set_header, h]

theorem set_header_full (ndebug : Bool) (r : HttpResponse) (k value : List Nat)
    (h : (List.range r.header_count).find?
      (fun i => strcmp (r.headers.getD i default).key k == 0) = none)
    (hfull : MAX_HEADERS ≤ r.header_count) :
    set_header ndebug r (some k) value
      = if ndebug then Outcome.ret (false, r) else Outcome.abort := by
  cases ndebug <;>
    simp only [set_header, h, ge_iff_le, hfull, if_true, c_assert, Bool.or_false, Bool.or_true,
      Bool.false_eq_true, if_false]

theorem set_header_free (ndebug : Bool) (r : HttpResponse) (k value : List Nat)
    (h : (List.range r.header_count).find?
      (fun i => strcmp (r.headers.getD i default).key k == 0) = none)
    (hfree : r.header_count < MAX_HEADERS) :
    set_header ndebug r (some k) value
      = Outcome.ret (true,
          { r with
            headers := r.headers.set r.header_count { key := k, value := value },
            header_count := r.header_count + 1 }) := by
  simp only [set_header, h, ge_iff_le, Nat.not_le.mpr hfree, if_false]

theorem find_key_none_iff (r : HttpResponse) (k : List Nat) :
    (List.range r.header_count).find?
        (fun i => strcmp (r.headers.getD i default).key k == 0) = none ↔
      ∀ i, i < r.header_count → strcmp (r.headers.getD i default).key k ≠ 0 := by
  rw [List.find?_range_eq_none]
  simp only [Bool.not_eq_eq_eq_not, Bool.not_true, beq_eq_false_iff_ne, ne_eq]

theorem find_key_some_iff (r : HttpResponse) (k : List Nat) (i : Nat) :
    (List.range r.header_count).find?
        (fun i => strcmp (r.headers.getD i default).key k == 0) = some i ↔
      i < r.header_count ∧ strcmp (r.headers.getD i default).key k = 0 ∧
        ∀ j, j < i → strcmp (r.headers.getD j default).key k ≠ 0 := by
  rw [List.find?_range_eq_some]
  simp only [beq_iff_eq, List.mem_range, Bool.not_eq_eq_eq_not, Bool.not_true,
    beq_eq_false_iff_ne, ne_eq]
  tauto

theorem set_header_inv (ndebug : Bool) (r : HttpResponse) (key : Option (List Nat))
    (value : List Nat) (p : Bool × HttpResponse) (hinv : RespInv r)
    (h : set_header ndebug r key value = Outcome.ret p) : RespInv p.2 := by
  obtain ⟨hlen, hcount, huniq⟩ := hinv
  cases key with
  | none =>
    simp only [set_header, Outcome.ret.injEq] at h
    subst h
    exact ⟨hlen, hcount, huniq⟩
  | some k =>
    cases hf : (List.range r.header_count).find?
        (fun i => strcmp (r.headers.getD i default).key k == 0) with
    | some i =>
      rw [set_header_found ndebug r k value i hf] at h
      simp only [Outcome.ret.injEq] at h
      subst h
      have hi := ((find_key_some_iff r k i).1 hf).1
      have hkey : ∀ j, ((r.headers.set i
          { r.headers.getD i default with value := value }).getD j default).key
            = (r.headers.getD j default).key := by
        intro j
        by_cases hji : j = i
        · subst hji
          rw [getD_set_same _ _ _ _ (by omega)]
        · rw [getD_set_other _ _ _ _ _ hji]
      refine ⟨by simp [hlen], hcount, ?_⟩
      intro b hb a hab
      simp only [hkey]
      exact huniq b hb a hab
    | none =>
      by_cases hfull : MAX_HEADERS ≤ r.header_count
      · rw [set_header_full ndebug r k value hf hfull] at h
        cases ndebug
        · simp at h
        · simp only [if_true, Outcome.ret.injEq] at h
          subst h
          exact ⟨hlen, hcount, huniq⟩
      · have hfree : r.header_count < MAX_HEADERS := Nat.not_le.mp hfull
        rw [set_header_free ndebug r k value hf hfree] at h
        simp only [Outcome.ret.injEq] at h
        subst h
        have hnone := (find_key_none_iff r k).1 hf
        refine ⟨by simp [hlen], hfree, ?_⟩
        intro b hb a hab
        simp only at hb ⊢
        have ha : a ≠ r.header_count := by omega
        rw [getD_set_other _ _ _ _ _ ha]
        by_cases hbc : b = r.header_count
        · subst hbc
          rw [getD_set_same _ _ _ _ (by omega)]
          exact hnone a hab
        · rw [getD_set_other _ _ _ _ _ hbc]
          exact huniq b (by omega) a hab

theorem set_body_inv (ndebug : Bool) (r r1 : HttpResponse) (body : List Nat) (hinv : RespInv r)
    (h : set_body ndebug r body = Outcome.ret r1) : RespInv r1 := by
  unfold set_body at h
  cases hs : set_header ndebug { r with body_ := body } (some (bytes "Content-Length"))
      (decimal body.length) with
  | abort => rw [hs] at h; simp at h
  | ret p =>
    rw [hs] at h
    simp only [Outcome.ret.injEq] at h
    subst h
    have hinv2 : RespInv { r with body_ := body } := hinv
    exact set_header_inv ndebug _ _ _ p hinv2 hs

theorem new_inv (ndebug : Bool) (headers0 : List Header) (code : Int) (r : HttpResponse)
    (hlen : headers0.length = MAX_HEADERS)
    (h : HttpResponse.new ndebug headers0 code = Outcome.ret r) : RespInv r := by
  unfold HttpResponse.new at h
  cases hs : set_header ndebug
      { status_code := code, headers := headers0, header_count := 0, body_ := [] }
      (some (bytes "Content-Type")) (bytes "text/plain") with
  | abort => rw [hs] at h; simp at h
  | ret p =>
    rw [hs] at h
    simp only [Outcome.ret.injEq] at h
    subst h
    refine set_header_inv ndebug _ _ _ p ⟨hlen, Nat.zero_le _, ?_⟩ hs
    intro j hj
    exact absurd hj (Nat.not_lt_zero j)

/-- Counterexample to C8 as stated: compiled without `NDEBUG`, `set_header` with
a new key on a response that holds ten headers does not return false: it stops
at the failed assertion. -/
theorem set_header_full_aborts :
    construct_then false (List.replicate 10 default) 200 ex_full_calls
        = Outcome.ret ex_resp_full ∧
      ex_resp_full.header_count = 10 ∧
      (∀ i, i < 10 → strcmp (ex_resp_full.headers.getD i default).key (bytes "New") ≠ 0) ∧
      set_header false ex_resp_full (some (bytes "New")) (bytes "v") = Outcome.abort ∧
      set_header false ex_resp_full (some (bytes "New")) (bytes "v")
        ≠ Outcome.ret (false, ex_resp_full) := by
  refine ⟨by decide, by decide, by decide, by decide, by decide⟩

/-- C8, amended: with a key that `strcmp` finds equal to none of the keys held,
`set_header` on a response that holds ten headers changes nothing, returning
false when compiled with `NDEBUG` and stopping at the failed assertion otherwise;
on a response that holds fewer than ten headers it returns true and stores the
key and the value as the last header, leaving everything else as it was. -/
theorem set_header_new_key (ndebug : Bool) (r : HttpResponse) (k value : List Nat)
    (hlen : r.headers.length = MAX_HEADERS)
    (hnew : ∀ i, i < r.header_count → strcmp (r.headers.getD i default).key k ≠ 0) :
    (MAX_HEADERS ≤ r.header_count →
      set_header ndebug r (some k) value
        = if ndebug then Outcome.ret (false, r) else Outcome.abort) ∧
    (r.header_count < MAX_HEADERS →
      ∃ r1, set_header ndebug r (some k) value = Outcome.ret (true, r1) ∧
        r1.header_count = r.header_count + 1 ∧
        r1.headers.getD r.header_count default = { key := k, value := value } ∧
        (∀ j, j ≠ r.header_count → r1.headers.getD j default = r.headers.getD j default) ∧
        r1.headers.length = r.headers.length ∧
        r1.status_code = r.status_code ∧ r1.body_ = r.body_) := by
  have hf := (find_key_none_iff r k).2 hnew
  refine ⟨fun hfull => set_header_full ndebug r k value hf hfull, ?_⟩
  intro hfree
  refine ⟨_, set_header_free ndebug r k value hf hfree, rfl, ?_, ?_, ?_, rfl, rfl⟩
  · simp only; rw [getD_set_same _ _ _ _ (by omega)]
  · intro j hj
    simp only; rw [getD_set_other _ _ _ _ _ hj]
  · simp

/-- Witness of C8: a new key on a response with ten headers, compiled with
`NDEBUG`, and a new key on a new response. -/
theorem set_header_new_key_witness :
    set_header true ex_resp_full (some (bytes "New")) (bytes "v")
        = Outcome.ret (false, ex_resp_full) ∧
      set_header false ex_resp (some (bytes "K")) (bytes "v1") = Outcome.ret (true, ex_resp_k) ∧
      (∃ r1, set_header false ex_resp (some (bytes "K")) (bytes "v1") = Outcome.ret (true, r1) ∧
        r1.header_count = ex_resp.header_count + 1 ∧
        r1.headers.getD ex_resp.header_count default = { key := bytes "K", value := bytes "v1" } ∧
        (∀ j, j ≠ ex_resp.header_count →
          r1.headers.getD j default = ex_resp.headers.getD j default) ∧
        r1.headers.length = ex_resp.headers.length ∧
        r1.status_code = ex_resp.status_code ∧ r1.body_ = ex_resp.body_) :=
  ⟨(set_header_new_key true ex_resp_full (bytes "New") (bytes "v") (by decide) (by decide)).1
      (by decide),
    by decide,
    (set_header_new_key false ex_resp (bytes "K") (bytes "v1") (by decide) (by decide)).2
      (by decide)⟩

set_option maxRecDepth 100000 in
/-- Counterexample to C9 as stated: on a response that holds ten headers, none
with the key "Content-Length", `set_body` stores the body and leaves the headers
as they were when compiled with `NDEBUG`, and stops at the failed assertion
otherwise; on a new response `set_body("Hello, World!")` stores the header
`Content-Length: 13`, which `build_response` writes. -/
theorem set_body_full_drops_content_length :
    construct_then true (List.replicate 10 default) 200 ex_full_calls
        = Outcome.ret ex_resp_full ∧
      set_body true ex_resp_full (bytes "abc")
        = Outcome.ret { ex_resp_full with body_ := bytes "abc" } ∧
      (∀ i, i < 10 →
        strcmp (ex_resp_full.headers.getD i default).key (bytes "Content-Length") ≠ 0) ∧
      set_body false ex_resp_full (bytes "abc") = Outcome.abort ∧
      set_body false ex_resp (bytes "Hello, World!") = Outcome.ret ex_resp_hello ∧
      build_response ex_resp_hello
        = bytes "HTTP/1.1 200 OK\r\nContent-Type: text/plain\r\nContent-Length: 13\r\n\r\nHello, World!" := by
  refine ⟨by decide, by decide, by decide, by decide, by decide, by decide⟩

/-- Counterexample to C10 as stated: compiled without `NDEBUG`, `add_route` on a
table that holds ten routes does not return false: it stops at the failed
assertion. -/
theorem add_route_full_aborts :
    add_routes false (HttpServer.new (List.replicate 10 default) (List.replicate 10 0))
        ex_ten_calls = Outcome.ret ex_table_full ∧
      ex_table_full.route_count = 10 ∧
      add_route false ex_table_full (bytes "/extra") HttpMethod.GET 11 = Outcome.abort ∧
      add_route false ex_table_full (bytes "/extra") HttpMethod.GET 11
        ≠ Outcome.ret (false, ex_table_full) := by
  refine ⟨by decide, by decide, by decide, by decide⟩

/-- C10, amended: on a table that holds ten routes `add_route` changes nothing,
returning false when compiled with `NDEBUG` and stopping at the failed assertion
otherwise, and it returns false in no other case; on a table that holds fewer
it returns true, stores the route and the hash of its uri at index `route_count`,
adds one to the count and leaves every other slot as it was, whatever routes the
table holds already. -/
theorem add_route_spec (ndebug : Bool) (t : HttpServer) (uri : List Nat) (method : HttpMethod)
    (handler : Nat) (hr : t.routes.length = MAX_ROUTES)
    (hh : t.route_hashes.length = MAX_ROUTES) :
    (MAX_ROUTES ≤ t.route_count →
      add_route ndebug t uri method handler
        = if ndebug then Outcome.ret (false, t) else Outcome.abort) ∧
    (∀ t1, add_route ndebug t uri method handler = Outcome.ret (false, t1) ↔
      ndebug = true ∧ MAX_ROUTES ≤ t.route_count ∧ t1 = t) ∧
    (t.route_count < MAX_ROUTES →
      ∃ t1, add_route ndebug t uri method handler = Outcome.ret (true, t1) ∧
        t1.route_count = t.route_count + 1 ∧
        t1.routes.getD t.route_count default
          = { uri := uri, method := method, handler := handler } ∧
        t1.route_hashes.getD t.route_count 0 = fnv1a_hash uri ∧
        (∀ j, j ≠ t.route_count →
          t1.routes.getD j default = t.routes.getD j default ∧
          t1.route_hashes.getD j 0 = t.route_hashes.getD j 0) ∧
        t1.routes.length = t.routes.length ∧
        t1.route_hashes.length = t.route_hashes.length) := by
  refine ⟨fun hfull => add_route_full ndebug t uri method handler hfull, ?_, ?_⟩
  · intro t1
    by_cases hfull : MAX_ROUTES ≤ t.route_count
    · rw [add_route_full ndebug t uri method handler hfull]
      cases ndebug
      · simp
      · simp only [if_true, Outcome.ret.injEq, Prod.mk.injEq, true_and]
        constructor
        · intro h; exact ⟨hfull, h.symm⟩
        · intro h; exact h.2.symm
    · rw [add_route_free ndebug t uri method handler (Nat.not_le.mp hfull)]
      simp [hfull]
  · intro hfree
    refine ⟨_, add_route_free ndebug t uri method handler hfree, rfl, ?_, ?_, ?_, ?_, ?_⟩
    · simp only; rw [getD_set_same _ _ _ _ (by omega)]
    · simp only; rw [getD_set_same _ _ _ _ (by omega)]
    · intro j hj
      simp only
      rw [getD_set_other _ _ _ _ _ hj, getD_set_other _ _ _ _ _ hj]
      exact ⟨rfl, rfl⟩
    · simp
    · simp

/-- Witness of C10: a full table compiled with `NDEBUG`, and a second
registration of a uri and method the table holds already. -/
theorem add_route_spec_witness :
    add_route true ex_table_full (bytes "/extra") HttpMethod.GET 11
        = Outcome.ret (false, ex_table_full) ∧
      (∃ t1, add_route false ex_table (bytes "/hello") HttpMethod.GET 4 = Outcome.ret (true, t1) ∧
        t1.route_count = ex_table.route_count + 1 ∧
        t1.routes.getD ex_table.route_count default
          = { uri := bytes "/hello", method := HttpMethod.GET, handler := 4 } ∧
        t1.route_hashes.getD ex_table.route_count 0 = fnv1a_hash (bytes "/hello") ∧
        (∀ j, j ≠ ex_table.route_count →
          t1.routes.getD j default = ex_table.routes.getD j default ∧
          t1.route_hashes.getD j 0 = ex_table.route_hashes.getD j 0) ∧
        t1.routes.length = ex_table.routes.length ∧
        t1.route_hashes.length = ex_table.route_hashes.length) :=
  ⟨(add_route_spec true ex_table_full (bytes "/extra") HttpMethod.GET 11 (by decide)
      (by decide)).1 (by decide),
    (add_route_spec false ex_table (bytes "/hello") HttpMethod.GET 4 (by decide)
      (by decide)).2.2 (by decide)⟩

/-! ## Invariants of reachable states, the hash pre-check and the hash -/

theorem find?_congr_mem {α : Type} (l : List α) (p q : α → Bool)
    (h : ∀ x ∈ l, p x = q x) : l.find? p = l.find? q := by
  induction l with
  | nil => rfl
  | cons a t ih =>
    have ha := h a (by simp)
    have ht := ih (fun x hx => h x (by simp [hx]))
    simp only [List.find?_cons, ha, ht]

/-- C19: on a table whose stored hashes are the hashes of the stored uris,
`find_route` returns what the plain scan over method and full uri returns; a
slot it returns holds the queried uri and method, also when another uri has the
same hash, and when some slot holds them it does not return `nullptr`. -/
theorem find_route_refines_plain (t : HttpServer) (uri : List Nat) (method : HttpMethod)
    (hhash : ∀ i, i < t.route_count →
      t.route_hashes.getD i 0 = fnv1a_hash (t.routes.getD i default).uri) :
    find_route t uri method = find_route_plain t uri method ∧
      (∀ i, find_route t uri method = some i →
        (t.routes.getD i default).uri = uri ∧ (t.routes.getD i default).method = method) ∧
      (∀ i, i < t.route_count → (t.routes.getD i default).uri = uri →
        (t.routes.getD i default).method = method →
        ∃ j, j ≤ i ∧ find_route t uri method = some j) := by
  have heq : find_route t uri method = find_route_plain t uri method := by
    unfold find_route find_route_plain
    by_cases h0 : t.route_count = 0
    · simp [h0]
    · simp only [h0, if_false]
      apply find?_congr_mem
      intro i hi
      have hi2 : i < t.route_count := List.mem_range.1 hi
      by_cases hu : (t.routes.getD i default).uri = uri
      · have hh := hhash i hi2
        rw [hu] at hh
        simp only [hh, beq_self_eq_true, Bool.true_and]
      · have : ((t.routes.getD i default).uri == uri) = false := beq_eq_false_iff_ne.2 hu
        simp only [this, Bool.and_false]
  refine ⟨heq, ?_, ?_⟩
  · intro i hi
    rw [heq] at hi
    unfold find_route_plain at hi
    have := (List.find?_range_eq_some.1 hi).1
    simp only [Bool.and_eq_true, beq_iff_eq] at this
    exact ⟨this.2, this.1⟩
  · intro i hi hu hm
    rw [heq]
    unfold find_route_plain
    cases hf : (List.range t.route_count).find? (fun i =>
        (t.routes.getD i default).method == method && (t.routes.getD i default).uri == uri) with
    | none =>
      have := List.find?_range_eq_none.1 hf i hi
      simp only [hu, hm, beq_self_eq_true, Bool.and_self, Bool.not_true,
        Bool.false_eq_true] at this
    | some j =>
      refine ⟨j, ?_, rfl⟩
      have hmin := (List.find?_range_eq_some.1 hf).2.2
      by_contra hji
      have := hmin i (by omega)
      simp only [hu, hm, beq_self_eq_true, Bool.and_self, Bool.not_true,
        Bool.false_eq_true] at this

/-- Witness of C19: the table holds "costarring"; the query "liquid" has the same
hash and is not found, the query "costarring" is. -/
theorem find_route_refines_plain_witness :
    fnv1a_hash (bytes "liquid") = fnv1a_hash (bytes "costarring") ∧
      find_route ex_table_collision (bytes "liquid") HttpMethod.GET = none ∧
      find_route ex_table_collision (bytes "costarring") HttpMethod.GET = some 0 ∧
      find_route ex_table_collision (bytes "liquid") HttpMethod.GET
        = find_route_plain ex_table_collision (bytes "liquid") HttpMethod.GET :=
  ⟨by decide, by decide, by decide,
    (find_route_refines_plain ex_table_collision (bytes "liquid") HttpMethod.GET
      (by decide)).1⟩

theorem fnv1a_foldl_eq (data : List Nat) :
    ∀ h : Nat,
      data.foldl (fun hash c => ((hash ^^^ (c % 256)) * 16777619) % 2 ^ 32) h
        = fnv1a_standard_from h data := by
  induction data with
  | nil => intro h; rfl
  | cons b bs ih => intro h; simp only [List.foldl_cons, fnv1a_standard_from, ih]

theorem foldl_mod_256 (data : List Nat) (hb : ∀ b ∈ data, b < 256) :
    ∀ h : Nat,
      data.foldl (fun hash c => ((hash ^^^ (c % 256)) * 16777619) % 2 ^ 32) h
        = data.foldl (fun h b => ((h ^^^ b) * 16777619) % 2 ^ 32) h := by
  induction data with
  | nil => intro h; simp only [List.foldl_nil]
  | cons b bs ih =>
    intro h
    have hb0 : b % 256 = b := Nat.mod_eq_of_lt (hb b (by simp))
    simp only [List.foldl_cons, hb0]
    exact ih (fun x hx => hb x (by simp [hx])) _

theorem fnv1a_standard_from_lt (data : List Nat) :
    ∀ h : Nat, h < 2 ^ 32 → fnv1a_standard_from h data < 2 ^ 32 := by
  induction data with
  | nil => intro h hh; exact hh
  | cons b bs ih =>
    intro h _
    exact ih _ (Nat.mod_lt _ (by decide))

/-- C20: `fnv1a_hash` is the standard 32-bit FNV-1a hash: the left fold of
`h ↦ ((h xor byte) * 16777619) mod 2 ^ 32` over the bytes from the offset basis
2166136261; its value fits 32 bits, it is 2166136261 on the empty string and
0xE40C292C on "a". -/
theorem fnv1a_hash_standard (data : List Nat) :
    fnv1a_hash data = fnv1a_standard data ∧
      ((∀ b ∈ data, b < 256) →
        fnv1a_hash data
          = data.foldl (fun h b => ((h ^^^ b) * 16777619) % 2 ^ 32) 2166136261) ∧
      fnv1a_hash data < 2 ^ 32 ∧
      fnv1a_hash [] = 2166136261 ∧
      fnv1a_hash (bytes "a") = 0xE40C292C := by
  have h1 : fnv1a_hash data = fnv1a_standard data := fnv1a_foldl_eq data _
  refine ⟨h1, ?_, ?_, by decide, by decide⟩
  · intro hb
    exact foldl_mod_256 data hb _
  · rw [h1]
    exact fnv1a_standard_from_lt data _ (by decide)

/-- Witness of C20: the hash of "/hello", computed by the code and by the
standard definition. -/
theorem fnv1a_hash_standard_witness :
    fnv1a_hash (bytes "/hello") = fnv1a_standard (bytes "/hello") ∧
      fnv1a_standard (bytes "a") = 0xE40C292C ∧
      fnv1a_standard (bytes "foobar") = 0xBF9CF968 :=
  ⟨(fnv1a_hash_standard (bytes "/hello")).1, by decide, by decide⟩

/-! ## Capacity: the assertions, eleven routes, ten new headers -/

/-- Counterexample to C16 as stated: compiled without `NDEBUG`, `add_route` on a
table with ten routes and `set_header` with a new key on a response with ten
headers do not return: the assertion fails and the program is aborted. -/
theorem capacity_paths_abort :
    ex_table_full.route_count = 10 ∧
      add_route false ex_table_full (bytes "/one-more") HttpMethod.POST 12 = Outcome.abort ∧
      ex_resp_full.header_count = 10 ∧
      (∀ i, i < 10 → strcmp (ex_resp_full.headers.getD i default).key (bytes "X-New") ≠ 0) ∧
      set_header false ex_resp_full (some (bytes "X-New")) (bytes "1") = Outcome.abort := by
  refine ⟨by decide, by decide, by decide, by decide, by decide⟩

/-- C16, amended: compiled with `NDEBUG` the two capacity failures return false
and the program goes on; compiled without it each of them reaches
`assert(false ...)` and the program is aborted; the two functions abort in no
other case. -/
theorem capacity_paths (ndebug : Bool) :
    (∀ t uri method handler, MAX_ROUTES ≤ t.route_count →
      add_route ndebug t uri method handler
        = if ndebug then Outcome.ret (false, t) else Outcome.abort) ∧
    (∀ r k value, MAX_HEADERS ≤ r.header_count →
      (∀ i, i < r.header_count → strcmp (r.headers.getD i default).key k ≠ 0) →
      set_header ndebug r (some k) value
        = if ndebug then Outcome.ret (false, r) else Outcome.abort) ∧
    (∀ t uri method handler,
      add_route ndebug t uri method handler = Outcome.abort ↔
        ndebug = false ∧ MAX_ROUTES ≤ t.route_count) ∧
    (∀ r key value,
      set_header ndebug r key value = Outcome.abort ↔
        ndebug = false ∧ MAX_HEADERS ≤ r.header_count ∧
          ∃ k, key = some k ∧
            ∀ i, i < r.header_count → strcmp (r.headers.getD i default).key k ≠ 0) := by
  refine ⟨?_, ?_, ?_, ?_⟩
  · intro t uri method handler hfull
    exact add_route_full ndebug t uri method handler hfull
  · intro r k value hfull hnew
    exact set_header_full ndebug r k value ((find_key_none_iff r k).2 hnew) hfull
  · intro t uri method handler
    by_cases hfull : MAX_ROUTES ≤ t.route_count
    · rw [add_route_full ndebug t uri method handler hfull]
      cases ndebug <;> simp [hfull]
    · rw [add_route_free ndebug t uri method handler (Nat.not_le.mp hfull)]
      simp [hfull]
  · intro r key value
    cases key with
    | none => simp [set_header]
    | some k =>
      cases hf : (List.range r.header_count).find?
          (fun i => strcmp (r.headers.getD i default).key k == 0) with
      | some i =>
        rw [set_header_found ndebug r k value i hf]
        have hi := (find_key_some_iff r k i).1 hf
        simp only [reduceCtorEq, false_iff, not_and, not_exists]
        intro _ _ k1 hk1 hall
        have hk : k1 = k := (Option.some.inj hk1).symm
        subst hk
        exact hall i hi.1 hi.2.1
      | none =>
        have hnone := (find_key_none_iff r k).1 hf
        by_cases hfull : MAX_HEADERS ≤ r.header_count
        · rw [set_header_full ndebug r k value hf hfull]
          cases ndebug
          · simp only [Bool.false_eq_true, if_false, true_iff, true_and]
            exact ⟨hfull, k, rfl, hnone⟩
          · simp
        · rw [set_header_free ndebug r k value hf (Nat.not_le.mp hfull)]
          simp [hfull]

/-- Witness of C16: the two capacity failures compiled with `NDEBUG`. -/
theorem capacity_paths_witness :
    add_route true ex_table_full (bytes "/one-more") HttpMethod.POST 12
        = Outcome.ret (false, ex_table_full) ∧
      set_header true ex_resp_full (some (bytes "X-New")) (bytes "1")
        = Outcome.ret (false, ex_resp_full) :=
  ⟨(capacity_paths true).1 ex_table_full (bytes "/one-more") HttpMethod.POST 12 (by decide),
    (capacity_paths true).2.1 ex_resp_full (bytes "X-New") (bytes "1") (by decide) (by decide)⟩

theorem new_eq (ndebug : Bool) (headers0 : List Header) (code : Int) :
    HttpResponse.new ndebug headers0 code
      = Outcome.ret
          { status_code := code,
            headers := headers0.set 0
              { key := bytes "Content-Type", value := bytes "text/plain" },
            header_count := 1,
            body_ := [] } := by
  unfold HttpResponse.new
  rw [set_header_free ndebug _ _ _ (by simp only [List.range_zero, List.find?_nil])
    (by simp only [MAX_HEADERS]; omega)]

/-! ## The parser and the first line -/

theorem first_line_prefix (a : List Nat) : first_line a <+: a := by
  induction a with
  | nil => exact List.prefix_refl _
  | cons b rest ih =>
    unfold first_line
    by_cases h : b = 13 ∧ rest.head? = some 10
    · rw [if_pos h]
      obtain ⟨hb, hr⟩ := h
      subst hb
      cases rest with
      | nil => simp at hr
      | cons c rest1 =>
        simp only [List.head?_cons, Option.some.injEq] at hr
        subst hr
        exact ⟨rest1, rfl⟩
    · rw [if_neg h]
      exact List.cons_prefix_cons.2 ⟨rfl, ih⟩

theorem prefix_first_line (p : List Nat) (hp : 13 ∉ p) :
    ∀ a : List Nat, p <+: a → p <+: first_line a := by
  induction p with
  | nil => intro a _; exact List.nil_prefix
  | cons x p1 ih =>
    intro a ha
    cases a with
    | nil => simp at ha
    | cons y a1 =>
      obtain ⟨hxy, hrest⟩ := List.cons_prefix_cons.1 ha
      subst hxy
      have hx : x ≠ 13 := fun h => hp (by simp [h])
      unfold first_line
      rw [if_neg (fun h => hx h.1)]
      exact List.cons_prefix_cons.2 ⟨rfl, ih (fun h => hp (by simp [h])) a1 hrest⟩

theorem memchr_append (s x : List Nat) (c e : Nat) (h : memchr s c s.length = some e) :
    memchr (s ++ x) c (s ++ x).length = some e ∧ (s ++ x).take e = s.take e := by
  simp only [memchr, List.take_length] at h ⊢
  by_cases hlt : List.findIdx (fun b => b == c) s < s.length
  · simp only [hlt, if_true, Option.some.injEq] at h
    subst h
    rw [List.findIdx_append, if_pos hlt]
    refine ⟨?_, List.take_append_of_le_length (Nat.le_of_lt hlt)⟩
    rw [if_pos]
    simp only [List.length_append]; omega
  · simp [hlt] at h

theorem parse_request_line_append (l x : List Nat) (res : HttpMethod × List Nat)
    (h : parse_request_line l = some res) : parse_request_line (l ++ x) = some res := by
  rw [parse_request_line_eq] at h ⊢
  by_cases hlen : l.length < 5
  · simp [hlen] at h
  · have hlen2 : ¬ (l ++ x).length < 5 := by simp only [List.length_append]; omega
    simp only [hlen, hlen2, if_false] at h ⊢
    have hpre : ∀ p : List Nat, p <+: l → p <+: l ++ x :=
      fun p hp => hp.trans (List.prefix_append l x)
    have hpre2 : ∀ p : List Nat, p.length ≤ l.length → p <+: l ++ x → p <+: l := by
      intro p hpl hp
      exact List.prefix_of_prefix_length_le hp (List.prefix_append l x) hpl
    by_cases hget : bytes "GET " <+: l
    · simp only [hget, hpre _ hget, if_true, Option.map_eq_some'] at h ⊢
      obtain ⟨e, he, hres⟩ := h
      rw [List.drop_append_of_le_length (by omega)]
      obtain ⟨h1, h2⟩ := memchr_append (l.drop 4) x 32 e he
      exact ⟨e, h1, by rw [h2]; exact hres⟩
    · have hget2 : ¬ bytes "GET " <+: l ++ x :=
        fun hp => hget (hpre2 _ (by
          have : (bytes "GET ").length = 4 := by decide
          omega) hp)
      by_cases hpost : bytes "POST " <+: l
      · simp only [hget, hget2, hpost, hpre _ hpost, if_true, if_false,
          Option.map_eq_some'] at h ⊢
        obtain ⟨e, he, hres⟩ := h
        rw [List.drop_append_of_le_length (by omega)]
        obtain ⟨h1, h2⟩ := memchr_append (l.drop 5) x 32 e he
        exact ⟨e, h1, by rw [h2]; exact hres⟩
      · simp [hget, hpost] at h

theorem parse_request_line_no_prefix (a : List Nat)
    (hget : ¬ bytes "GET " <+: a) (hpost : ¬ bytes "POST " <+: a) :
    parse_request_line a = none := by
  rw [parse_request_line_eq]
  simp [hget, hpost]

theorem parse_request_line_with_space (l : List Nat)
    (h : (bytes "GET " <+: l ∧ 32 ∈ l.drop 4) ∨ (bytes "POST " <+: l ∧ 32 ∈ l.drop 5)) :
    ∃ res, parse_request_line l = some res := by
  have hG : bytes "GET " = [71, 69, 84, 32] := by decide
  have hP : bytes "POST " = [80, 79, 83, 84, 32] := by decide
  rw [parse_request_line_eq]
  rcases h with ⟨hget, hsp⟩ | ⟨hpost, hsp⟩
  · have hlen : ¬ l.length < 5 := by
      intro hl
      have : l.drop 4 = [] := by
        apply List.eq_nil_of_length_eq_zero
        have := hget.length_le
        rw [hG] at this
        simp only [List.length_drop, List.length_cons, List.length_nil] at this ⊢
        omega
      rw [this] at hsp
      simp at hsp
    cases hm : memchr (l.drop 4) 32 (l.drop 4).length with
    | none => exact absurd hsp ((memchr_none_iff _ _).1 hm)
    | some e =>
      exact ⟨(HttpMethod.GET, (l.drop 4).take e),
        by simp only [hlen, hget, if_true, if_false, hm, Option.map_some']⟩
  · have hget : ¬ bytes "GET " <+: l := by
      rintro ⟨s, hs⟩
      obtain ⟨u, hu⟩ := hpost
      rw [hG, ← hu, hP] at hs
      simp at hs
    have hlen : ¬ l.length < 5 := by
      have := hpost.length_le
      rw [hP] at this
      simp only [List.length_cons, List.length_nil] at this
      omega
    cases hm : memchr (l.drop 5) 32 (l.drop 5).length with
    | none => exact absurd hsp ((memchr_none_iff _ _).1 hm)
    | some e =>
      exact ⟨(HttpMethod.POST, (l.drop 5).take e),
        by simp only [hlen, hget, hpost, if_true, if_false, hm, Option.map_some']⟩

/-- Counterexample to C15 as stated: two inputs with the same first line
"GET /x\r\n", which has no space after the uri; the one with a header line
behind it succeeds, with a uri that runs into the header line, and the other
fails. -/
theorem parse_request_line_reads_past_line :
    first_line (bytes "GET /x\r\nHost: a b\r\n") = bytes "GET /x\r\n" ∧
      first_line (bytes "GET /x\r\n") = bytes "GET /x\r\n" ∧
      parse_request_line (bytes "GET /x\r\nHost: a b\r\n")
        = some (HttpMethod.GET, bytes "/x\r\nHost:") ∧
      parse_request_line (bytes "GET /x\r\n") = none := by
  refine ⟨by decide, by decide, by decide, by decide⟩

/-- C15, amended: two inputs with the same first line get the same outcome from
`parse_request_line` when that line starts with neither "GET " nor "POST ", or
has a space byte after the prefix it starts with. -/
theorem parse_request_line_first_line (a b : List Nat)
    (hline : first_line a = first_line b)
    (hok : (¬ bytes "GET " <+: first_line a ∧ ¬ bytes "POST " <+: first_line a) ∨
      (bytes "GET " <+: first_line a ∧ 32 ∈ (first_line a).drop 4) ∨
      (bytes "POST " <+: first_line a ∧ 32 ∈ (first_line a).drop 5)) :
    parse_request_line a = parse_request_line b := by
  have hG : 13 ∉ bytes "GET " := by decide
  have hP : 13 ∉ bytes "POST " := by decide
  rcases hok with ⟨hget, hpost⟩ | hsp
  · have ha := parse_request_line_no_prefix a
      (fun h => hget (prefix_first_line _ hG a h))
      (fun h => hpost (prefix_first_line _ hP a h))
    rw [hline] at hget hpost
    have hb := parse_request_line_no_prefix b
      (fun h => hget (prefix_first_line _ hG b h))
      (fun h => hpost (prefix_first_line _ hP b h))
    rw [ha, hb]
  · obtain ⟨res, hres⟩ := parse_request_line_with_space (first_line a) hsp
    obtain ⟨xa, hxa⟩ := first_line_prefix a
    obtain ⟨xb, hxb⟩ := first_line_prefix b
    have ha := parse_request_line_append (first_line a) xa res hres
    rw [hline] at hres
    have hb := parse_request_line_append (first_line b) xb res hres
    rw [hxa] at ha
    rw [hxb] at hb
    rw [ha, hb]

/-- Witness of C15: the same request line followed by different header lines
and bodies. -/
theorem parse_request_line_first_line_witness :
    parse_request_line (bytes "POST /submit HTTP/1.1\r\nHost: a\r\n\r\nx=1 y=2")
        = parse_request_line (bytes "POST /submit HTTP/1.1\r\nContent-Length: 0\r\n\r\n") ∧
      parse_request_line (bytes "POST /submit HTTP/1.1\r\nHost: a\r\n\r\nx=1 y=2")
        = some (HttpMethod.POST, bytes "/submit") :=
  ⟨parse_request_line_first_line _ _ (by decide) (Or.inr (Or.inr (by decide))), by decide⟩

/-! ## The dispatch of a request -/

theorem send_404_eq (conn : List ConnEvent) :
    send_404 conn
      = conn ++ [ConnEvent.write (bytes "HTTP/1.1 404 Not Found\r\nContent-Length: 0\r\n\r\n")] := by
  have h : (bytes "HTTP/1.1 404 Not Found\r\nContent-Length: 0\r\n\r\n").take
      (strlen (bytes "HTTP/1.1 404 Not Found\r\nContent-Length: 0\r\n\r\n"))
        = bytes "HTTP/1.1 404 Not Found\r\nContent-Length: 0\r\n\r\n" := by decide
  simp only [send_404, netconn_write, h]

/-- C14: in the example program (one route, GET "/hello", bound to
`hello_handler`) the request "GET /hello HTTP/1.1\r\n\r\n" makes the handler
write a response that begins with "HTTP/1.1 200 OK\r\n", contains
"Content-Type: text/plain\r\n" and ends with the body "Hello, World!"; the
request "GET /missing HTTP/1.1\r\n\r\n" makes `handle_client` write a response
that begins with "HTTP/1.1 404 Not Found\r\n" and has nothing after the blank
line. -/
theorem end_to_end_hello (ndebug : Bool) :
    add_route ndebug (HttpServer.new (List.replicate 10 default) (List.replicate 10 0))
        (bytes "/hello") HttpMethod.GET hello_handler_addr = Outcome.ret (true, example_table) ∧
      handle_client (example_handlers ndebug) example_table []
          (some (bytes "GET /hello HTTP/1.1\r\n\r\n"))
        = Outcome.ret
            ([ConnEvent.call hello_handler_addr (bytes "GET /hello HTTP/1.1\r\n\r\n"),
              ConnEvent.write (bytes
                "HTTP/1.1 200 OK\r\nContent-Type: text/plain\r\nContent-Length: 13\r\n\r\nHello, World!")],
              ESP_OK) ∧
      bytes "HTTP/1.1 200 OK\r\n" <+: bytes
        "HTTP/1.1 200 OK\r\nContent-Type: text/plain\r\nContent-Length: 13\r\n\r\nHello, World!" ∧
      bytes "Content-Type: text/plain\r\n" <:+: bytes
        "HTTP/1.1 200 OK\r\nContent-Type: text/plain\r\nContent-Length: 13\r\n\r\nHello, World!" ∧
      bytes "\r\n\r\nHello, World!" <:+ bytes
        "HTTP/1.1 200 OK\r\nContent-Type: text/plain\r\nContent-Length: 13\r\n\r\nHello, World!" ∧
      handle_client (example_handlers ndebug) example_table []
          (some (bytes "GET /missing HTTP/1.1\r\n\r\n"))
        = Outcome.ret
            ([ConnEvent.write
              (bytes "HTTP/1.1 404 Not Found\r\n" ++ bytes "Content-Length: 0\r\n"
                ++ bytes "\r\n" ++ [])], ESP_OK) := by
  cases ndebug <;> refine ⟨by decide, by decide, by decide, by decide, by decide, by decide⟩

/-- Witness of C14: the registered path in the build with assertions. -/
theorem end_to_end_hello_witness :
    handle_client (example_handlers false) example_table []
        (some (bytes "GET /hello HTTP/1.1\r\n\r\n"))
      = Outcome.ret
          ([ConnEvent.call hello_handler_addr (bytes "GET /hello HTTP/1.1\r\n\r\n"),
            ConnEvent.write (bytes
              "HTTP/1.1 200 OK\r\nContent-Type: text/plain\r\nContent-Length: 13\r\n\r\nHello, World!")],
            ESP_OK) :=
  (end_to_end_hello false).2.1

/-! ## Calls of `add_route` interleaved with writes of the caller -/

theorem route_eq_of_fields (a b : HttpRoute) (hu : a.uri = b.uri) (hm : a.method = b.method)
    (hh : a.handler = b.handler) : a = b := by
  cases a; cases b
  simp only at hu hm hh
  subst hu; subst hm; subst hh
  rfl

theorem caller_write_tracks (t : HttpServer) (regs : List HttpRoute) (i : Nat) (b : List Nat)
    (h : TableTracks t regs) : TableTracks (caller_write t i b) regs := by
  unfold caller_write
  by_cases hc : i < t.route_count ∧ b.length = (t.routes.getD i default).uri.length
  · rw [if_pos hc]
    obtain ⟨hr, hh, hcount, hslots⟩ := h
    have hil : i < t.routes.length := by rw [hr]; omega
    refine ⟨by simp only [List.length_set]; exact hr, hh, hcount, ?_⟩
    intro j hj
    simp only at hj ⊢
    by_cases hji : j = i
    · subst hji
      rw [getD_set_same _ _ _ _ hil]
      have := hslots j hj
      exact ⟨this.1, this.2.1, this.2.2.1, by simp only; rw [hc.2]; exact this.2.2.2⟩
    · rw [getD_set_other _ _ _ _ _ hji]
      exact hslots j hj
  · rw [if_neg hc]; exact h

theorem getD_append_left {α : Type} (l m : List α) (d : α) (i : Nat) (h : i < l.length) :
    (l ++ m).getD i d = l.getD i d := by
  rw [List.getD_eq_getElem?_getD, List.getD_eq_getElem?_getD, List.getElem?_append_left h]

theorem getD_append_length {α : Type} (l : List α) (a d : α) :
    (l ++ [a]).getD l.length d = a := by
  rw [List.getD_eq_getElem?_getD, List.getElem?_append_right (Nat.le_refl _)]
  simp

theorem add_route_tracks (ndebug : Bool) (t : HttpServer) (regs : List HttpRoute)
    (uri : List Nat) (method : HttpMethod) (handler : Nat) (p : Bool × HttpServer)
    (h : TableTracks t regs) (hp : add_route ndebug t uri method handler = Outcome.ret p) :
    TableTracks p.2 (regs ++ [{ uri := uri, method := method, handler := handler }]) ∧
      p.1 = decide (regs.length < MAX_ROUTES) := by
  obtain ⟨hr, hh, hcount, hslots⟩ := h
  by_cases hfull : MAX_ROUTES ≤ t.route_count
  · rw [add_route_full ndebug t uri method handler hfull] at hp
    cases ndebug
    · simp at hp
    · simp only [if_true, Outcome.ret.injEq] at hp
      subst hp
      have hge : MAX_ROUTES ≤ regs.length := by omega
      refine ⟨⟨hr, hh, ?_, ?_⟩, ?_⟩
      · simp only [List.length_append, List.length_singleton]; omega
      · intro i hi
        simp only at hi ⊢
        rw [getD_append_left _ _ _ _ (by omega)]
        exact hslots i hi
      · simp only [decide_eq_false_iff_not, Bool.false_eq, not_lt]; exact hge
  · have hfree : t.route_count < MAX_ROUTES := Nat.not_le.mp hfull
    rw [add_route_free ndebug t uri method handler hfree] at hp
    simp only [Outcome.ret.injEq] at hp
    subst hp
    have hlen : regs.length = t.route_count := by omega
    refine ⟨⟨by simp only [List.length_set]; exact hr, by simp only [List.length_set]; exact hh,
      ?_, ?_⟩, ?_⟩
    · simp only [List.length_append, List.length_singleton]; omega
    · intro i hi
      simp only at hi ⊢
      by_cases hic : i = t.route_count
      · subst hic
        rw [getD_set_same _ _ _ _ (by omega), getD_set_same _ _ _ _ (by omega), ← hlen,
          getD_append_length]
        exact ⟨rfl, rfl, rfl, rfl⟩
      · rw [getD_set_other _ _ _ _ _ hic, getD_set_other _ _ _ _ _ hic,
          getD_append_left _ _ _ _ (by omega)]
        exact hslots i (by omega)
    · simp only [Bool.true_eq, decide_eq_true_eq]; omega

theorem run_table_steps_tracks (ndebug : Bool) (steps : List TableStep) :
    ∀ (t : HttpServer) (regs : List HttpRoute) (rets : List Bool) (t1 : HttpServer),
      TableTracks t regs → run_table_steps ndebug t steps = Outcome.ret (rets, t1) →
      TableTracks t1 (regs ++ registrations steps) := by
  induction steps with
  | nil =>
    intro t regs rets t1 h hrun
    simp only [run_table_steps, Outcome.ret.injEq, Prod.mk.injEq] at hrun
    rw [← hrun.2]
    simpa only [registrations, List.append_nil] using h
  | cons s rest ih =>
    intro t regs rets t1 h hrun
    cases s with
    | add_route uri method handler =>
      simp only [run_table_steps] at hrun
      cases hp : add_route ndebug t uri method handler with
      | abort => rw [hp] at hrun; simp at hrun
      | ret p =>
        rw [hp] at hrun
        simp only at hrun
        cases hq : run_table_steps ndebug p.2 rest with
        | abort => rw [hq] at hrun; simp at hrun
        | ret q =>
          rw [hq] at hrun
          simp only [Outcome.ret.injEq, Prod.mk.injEq] at hrun
          have := ih p.2 _ q.1 q.2 (add_route_tracks ndebug t regs uri method handler p h hp).1 hq
          rw [← hrun.2]
          simpa only [registrations, List.append_assoc, List.singleton_append] using this
    | caller_write i b =>
      simp only [run_table_steps] at hrun
      have := ih _ regs rets t1 (caller_write_tracks t regs i b h) hrun
      simpa only [registrations] using this

theorem tracks_new (routes0 : List HttpRoute) (hashes0 : List Nat)
    (hr : routes0.length = MAX_ROUTES) (hh : hashes0.length = MAX_ROUTES) :
    TableTracks (HttpServer.new routes0 hashes0) [] :=
  ⟨hr, hh, by simp [HttpServer.new], fun i hi => absurd hi (Nat.not_lt_zero i)⟩

theorem tracks_stable (t : HttpServer) (regs : List HttpRoute) (h : TableTracks t regs)
    (hstable : ∀ i, i < t.route_count →
      (t.routes.getD i default).uri = (regs.getD i default).uri) :
    TableInv t ∧ stored t = regs.take MAX_ROUTES := by
  obtain ⟨hr, hh, hcount, hslots⟩ := h
  have hslot : ∀ i, i < t.route_count → t.routes.getD i default = regs.getD i default := by
    intro i hi
    have := hslots i hi
    exact route_eq_of_fields _ _ (hstable i hi) this.2.1 this.2.2.1
  have hinv : TableInv t := by
    refine ⟨hr, hh, by omega, ?_⟩
    intro i hi
    rw [(hslots i hi).1, hstable i hi]
  refine ⟨hinv, ?_⟩
  apply List.ext_getElem?
  intro i
  by_cases hi : i < t.route_count
  · rw [stored_getElem? t hinv i hi, hslot i hi, List.getElem?_take, if_pos (by omega),
      List.getD_eq_getElem?_getD]
    have hil : i < regs.length := by omega
    rw [List.getElem?_eq_getElem hil]
    rfl
  · rw [List.getElem?_eq_none (by rw [stored_length t hinv]; omega),
      List.getElem?_eq_none (by simp only [List.length_take]; omega)]

theorem find_route_of_calls (t : HttpServer) (calls : List HttpRoute) (hinv : TableInv t)
    (hst : stored t = calls.take MAX_ROUTES) (uri : List Nat) (method : HttpMethod) :
    (∀ i, find_route t uri method = some i ↔
      i < MAX_ROUTES ∧ calls[i]? = some (t.routes.getD i default) ∧
        (t.routes.getD i default).uri = uri ∧ (t.routes.getD i default).method = method ∧
        ∀ j c, j < i → calls[j]? = some c → ¬ (c.uri = uri ∧ c.method = method)) ∧
    (find_route t uri method = none ↔
      ∀ j c, j < MAX_ROUTES → calls[j]? = some c → ¬ (c.uri = uri ∧ c.method = method)) := by
  have hcount : t.route_count = min MAX_ROUTES calls.length := by
    rw [← stored_length t hinv, hst, List.length_take]
  have hslot : ∀ j, j < t.route_count → calls[j]? = some (t.routes.getD j default) := by
    intro j hj
    have hj2 : j < MAX_ROUTES := by omega
    rw [← stored_getElem? t hinv j hj, hst, List.getElem?_take, if_pos hj2]
  have hcall : ∀ j c, j < MAX_ROUTES → calls[j]? = some c →
      j < t.route_count ∧ t.routes.getD j default = c := by
    intro j c hj hc
    have hjl : j < calls.length := by
      rcases Nat.lt_or_ge j calls.length with h | h
      · exact h
      · rw [List.getElem?_eq_none h] at hc; simp at hc
    have hjc : j < t.route_count := by omega
    refine ⟨hjc, ?_⟩
    have := hslot j hjc
    rw [hc] at this
    exact (Option.some.inj this).symm
  constructor
  · intro i
    rw [find_route_some_iff t hinv uri method i]
    constructor
    · rintro ⟨hi, hm, hmin⟩
      refine ⟨by omega, hslot i hi, hm.1, hm.2, ?_⟩
      intro j c hj hc hmc
      obtain ⟨_, hcj⟩ := hcall j c (by omega) hc
      exact hmin j hj (by rw [slot_matches, hcj]; exact hmc)
    · rintro ⟨hi, hc, hu, hm, hmin⟩
      obtain ⟨hic, _⟩ := hcall i _ hi hc
      refine ⟨hic, ⟨hu, hm⟩, ?_⟩
      intro j hj hmj
      exact hmin j _ hj (hslot j (by omega)) hmj
  · rw [find_route_none_iff t hinv uri method]
    constructor
    · intro hall j c hj hc hmc
      obtain ⟨hjc, hcj⟩ := hcall j c hj hc
      exact hall j hjc (by rw [slot_matches, hcj]; exact hmc)
    · intro hall j hj hmj
      exact hall j _ (by omega) (hslot j hj) hmj

/-- Counterexample to C1 as stated: the table keeps views of the caller's bytes;
after three registrations through one buffer all three slots read GET "/r2",
`find_route` on GET "/r2" returns slot 2 and not the earliest slot with that
uri and method, and on GET "/r0", which was registered, it returns `nullptr`. -/
theorem find_route_reused_buffer :
    run_table_steps false (HttpServer.new (List.replicate 10 default) (List.replicate 10 0))
        ex_reuse_steps = Outcome.ret ([true, true, true], ex_table_reused) ∧
      (ex_table_reused.routes.getD 0 default).uri = bytes "/r2" ∧
      (ex_table_reused.routes.getD 0 default).method = HttpMethod.GET ∧
      find_route ex_table_reused (bytes "/r2") HttpMethod.GET = some 2 ∧
      registrations ex_reuse_steps
        = [ { uri := bytes "/r0", method := HttpMethod.GET, handler := 1 },
            { uri := bytes "/r1", method := HttpMethod.GET, handler := 2 },
            { uri := bytes "/r2", method := HttpMethod.GET, handler := 3 } ] ∧
      find_route ex_table_reused (bytes "/r0") HttpMethod.GET = none := by
  refine ⟨by decide, by decide, by decide, by decide, by decide, by decide⟩

/-- C1, amended: in a table built from the constructor by `add_route` calls and
writes of the caller, at a moment when every stored view reads the bytes it read
when it was registered, `find_route` returns slot `i` exactly when `i` is the
first registration with the queried uri and method (among those the table
stored, which are the first `MAX_ROUTES` in order), the slot holds that
registration, and it returns `nullptr` exactly when no stored registration has
that uri and method. -/
theorem find_route_earliest_registered (ndebug : Bool) (routes0 : List HttpRoute)
    (hashes0 : List Nat) (steps : List TableStep) (rets : List Bool) (t : HttpServer)
    (hr : routes0.length = MAX_ROUTES) (hh : hashes0.length = MAX_ROUTES)
    (hbuild : run_table_steps ndebug (HttpServer.new routes0 hashes0) steps
      = Outcome.ret (rets, t))
    (hstable : ∀ i, i < t.route_count →
      (t.routes.getD i default).uri = ((registrations steps).getD i default).uri)
    (uri : List Nat) (method : HttpMethod) :
    (∀ i, find_route t uri method = some i ↔
      i < MAX_ROUTES ∧ (registrations steps)[i]? = some (t.routes.getD i default) ∧
        (t.routes.getD i default).uri = uri ∧ (t.routes.getD i default).method = method ∧
        ∀ j c, j < i → (registrations steps)[j]? = some c →
          ¬ (c.uri = uri ∧ c.method = method)) ∧
    (find_route t uri method = none ↔
      ∀ j c, j < MAX_ROUTES → (registrations steps)[j]? = some c →
        ¬ (c.uri = uri ∧ c.method = method)) := by
  have htr := run_table_steps_tracks ndebug steps _ [] rets t (tracks_new routes0 hashes0 hr hh)
    hbuild
  rw [List.nil_append] at htr
  obtain ⟨hinv, hst⟩ := tracks_stable t _ htr hstable
  exact find_route_of_calls t _ hinv hst uri method

/-- Witness of C1: two registrations of GET "/hello" followed by POST "/submit",
with a write of the caller that leaves the bytes as they were; the lookup of
GET "/hello" returns slot 0, the first registration. -/
theorem find_route_earliest_registered_witness :
    run_table_steps true (HttpServer.new (List.replicate 10 default) (List.replicate 10 0))
        (add_steps ex_calls ++ [TableStep.caller_write 0 (bytes "/hello")])
        = Outcome.ret ([true, true, true], ex_table) ∧
      registrations (add_steps ex_calls ++ [TableStep.caller_write 0 (bytes "/hello")])
        = ex_calls ∧
      find_route ex_table (bytes "/hello") HttpMethod.GET = some 0 ∧
      (ex_table.routes.getD 0 default).handler = 1 ∧
      find_route ex_table (bytes "/hello") HttpMethod.POST = none ∧
      (∀ j c, j < MAX_ROUTES →
        (registrations (add_steps ex_calls ++ [TableStep.caller_write 0 (bytes "/hello")]))[j]?
          = some c →
        ¬ (c.uri = bytes "/hello" ∧ c.method = HttpMethod.POST)) :=
  ⟨by decide, by decide, by decide, by decide, by decide,
    (find_route_earliest_registered true (List.replicate 10 default) (List.replicate 10 0)
      (add_steps ex_calls ++ [TableStep.caller_write 0 (bytes "/hello")]) [true, true, true]
      ex_table (by decide) (by decide) (by decide) (by decide)
      (bytes "/hello") HttpMethod.POST).2.1 (by decide)⟩

/-- Counterexample to C18 as stated: after three registrations through one
buffer the table is reachable and slot 0 reads "/r2" while its stored hash is
that of "/r0". -/
theorem route_hash_reused_buffer :
    run_table_steps false (HttpServer.new (List.replicate 10 default) (List.replicate 10 0))
        ex_reuse_steps = Outcome.ret ([true, true, true], ex_table_reused) ∧
      0 < ex_table_reused.route_count ∧
      ex_table_reused.route_hashes.getD 0 0 = fnv1a_hash (bytes "/r0") ∧
      ex_table_reused.route_hashes.getD 0 0
        ≠ fnv1a_hash (ex_table_reused.routes.getD 0 default).uri := by
  refine ⟨by decide, by decide, by decide, by decide⟩

/-- C18, amended: a table built from the constructor by any sequence of
`add_route` calls, failing ones included, and writes of the caller has
`route_count ≤ 10`, and below `route_count` every stored hash is `fnv1a_hash` of
the bytes the uri of that slot read when it was registered; it is the hash of
the uri stored in the slot whenever the view reads those bytes still. -/
theorem route_table_invariant (ndebug : Bool) (routes0 : List HttpRoute) (hashes0 : List Nat)
    (steps : List TableStep) (rets : List Bool) (t : HttpServer)
    (hr : routes0.length = MAX_ROUTES) (hh : hashes0.length = MAX_ROUTES)
    (hbuild : run_table_steps ndebug (HttpServer.new routes0 hashes0) steps
      = Outcome.ret (rets, t)) :
    t.route_count ≤ 10 ∧
      (∀ i, i < t.route_count →
        t.route_hashes.getD i 0 = fnv1a_hash ((registrations steps).getD i default).uri) ∧
      (∀ i, i < t.route_count →
        (t.routes.getD i default).uri = ((registrations steps).getD i default).uri →
        t.route_hashes.getD i 0 = fnv1a_hash (t.routes.getD i default).uri) := by
  have htr := run_table_steps_tracks ndebug steps _ [] rets t (tracks_new routes0 hashes0 hr hh)
    hbuild
  rw [List.nil_append] at htr
  obtain ⟨_, _, hcount, hslots⟩ := htr
  refine ⟨?_, fun i hi => (hslots i hi).1, ?_⟩
  · rw [hcount]; exact Nat.min_le_right _ _
  · intro i hi hu
    rw [hu]; exact (hslots i hi).1

/-- Witness of C18: ten registrations and an eleventh that fails, compiled with
`NDEBUG`, and the three registrations through one buffer. -/
theorem route_table_invariant_witness :
    run_table_steps true (HttpServer.new (List.replicate 10 default) (List.replicate 10 0))
        (add_steps ex_eleven_calls)
      = Outcome.ret (List.replicate 10 true ++ [false], ex_table_full) ∧
      (ex_table_full.route_count ≤ 10 ∧
        (∀ i, i < ex_table_full.route_count →
          ex_table_full.route_hashes.getD i 0
            = fnv1a_hash ((registrations (add_steps ex_eleven_calls)).getD i default).uri) ∧
        (∀ i, i < ex_table_full.route_count →
          (ex_table_full.routes.getD i default).uri
            = ((registrations (add_steps ex_eleven_calls)).getD i default).uri →
          ex_table_full.route_hashes.getD i 0
            = fnv1a_hash (ex_table_full.routes.getD i default).uri)) ∧
      ∀ i, i < ex_table_reused.route_count →
        ex_table_reused.route_hashes.getD i 0
          = fnv1a_hash ((registrations ex_reuse_steps).getD i default).uri :=
  ⟨by decide,
    route_table_invariant true (List.replicate 10 default) (List.replicate 10 0)
      (add_steps ex_eleven_calls) (List.replicate 10 true ++ [false]) ex_table_full
      (by decide) (by decide) (by decide),
    (route_table_invariant false (List.replicate 10 default) (List.replicate 10 0)
      ex_reuse_steps [true, true, true] ex_table_reused
      (by decide) (by decide) (by decide)).2.1⟩

theorem set_header_wf (ndebug : Bool) (r : HttpResponse) (key : Option (List Nat))
    (value : List Nat) (p : Bool × HttpResponse)
    (hwf : r.headers.length = MAX_HEADERS ∧ r.header_count ≤ MAX_HEADERS)
    (h : set_header ndebug r key value = Outcome.ret p) :
    p.2.headers.length = MAX_HEADERS ∧ p.2.header_count ≤ MAX_HEADERS := by
  obtain ⟨hlen, hcount⟩ := hwf
  cases key with
  | none =>
    simp only [set_header, Outcome.ret.injEq] at h
    subst h
    exact ⟨hlen, hcount⟩
  | some k =>
    cases hf : (List.range r.header_count).find?
        (fun i => strcmp (r.headers.getD i default).key k == 0) with
    | some i =>
      rw [set_header_found ndebug r k value i hf] at h
      simp only [Outcome.ret.injEq] at h
      subst h
      exact ⟨by simp only [List.length_set]; exact hlen, hcount⟩
    | none =>
      by_cases hfull : MAX_HEADERS ≤ r.header_count
      · rw [set_header_full ndebug r k value hf hfull] at h
        cases ndebug
        · simp at h
        · simp only [if_true, Outcome.ret.injEq] at h
          subst h
          exact ⟨hlen, hcount⟩
      · have hfree : r.header_count < MAX_HEADERS := Nat.not_le.mp hfull
        rw [set_header_free ndebug r k value hf hfree] at h
        simp only [Outcome.ret.injEq] at h
        subst h
        exact ⟨by simp only [List.length_set]; exact hlen, hfree⟩

theorem set_body_wf (ndebug : Bool) (r r1 : HttpResponse) (body : List Nat)
    (hwf : r.headers.length = MAX_HEADERS ∧ r.header_count ≤ MAX_HEADERS)
    (h : set_body ndebug r body = Outcome.ret r1) :
    r1.headers.length = MAX_HEADERS ∧ r1.header_count ≤ MAX_HEADERS := by
  unfold set_body at h
  cases hs : set_header ndebug { r with body_ := body } (some (bytes "Content-Length"))
      (decimal body.length) with
  | abort => rw [hs] at h; simp at h
  | ret p =>
    rw [hs] at h
    simp only [Outcome.ret.injEq] at h
    subst h
    have hwf2 : ({ r with body_ := body } : HttpResponse).headers.length = MAX_HEADERS ∧
        ({ r with body_ := body } : HttpResponse).header_count ≤ MAX_HEADERS := hwf
    exact set_header_wf ndebug _ _ _ p hwf2 hs

theorem caller_write_key_wf (r : HttpResponse) (i : Nat) (key : List Nat)
    (hwf : r.headers.length = MAX_HEADERS ∧ r.header_count ≤ MAX_HEADERS) :
    (caller_write_key r i key).headers.length = MAX_HEADERS ∧
      (caller_write_key r i key).header_count ≤ MAX_HEADERS := by
  unfold caller_write_key
  by_cases hi : i < r.header_count
  · rw [if_pos hi]
    exact ⟨by simp only [List.length_set]; exact hwf.1, hwf.2⟩
  · rw [if_neg hi]; exact hwf

theorem run_resp_steps_wf (ndebug : Bool) (steps : List RespStep) :
    ∀ (r : HttpResponse) (rets : List Bool) (r1 : HttpResponse),
      r.headers.length = MAX_HEADERS ∧ r.header_count ≤ MAX_HEADERS →
      run_resp_steps ndebug r steps = Outcome.ret (rets, r1) →
      r1.headers.length = MAX_HEADERS ∧ r1.header_count ≤ MAX_HEADERS := by
  induction steps with
  | nil =>
    intro r rets r1 hwf h
    simp only [run_resp_steps, Outcome.ret.injEq, Prod.mk.injEq] at h
    rw [← h.2]; exact hwf
  | cons s rest ih =>
    intro r rets r1 hwf h
    cases s with
    | call c =>
      cases c with
      | set_status code =>
        simp only [run_resp_steps] at h
        exact ih (set_status r code) rets r1 hwf h
      | set_header key value =>
        simp only [run_resp_steps] at h
        cases hp : set_header ndebug r key value with
        | abort => rw [hp] at h; simp at h
        | ret p =>
          rw [hp] at h
          simp only at h
          cases hq : run_resp_steps ndebug p.2 rest with
          | abort => rw [hq] at h; simp at h
          | ret q =>
            rw [hq] at h
            simp only [Outcome.ret.injEq, Prod.mk.injEq] at h
            rw [← h.2]
            exact ih p.2 q.1 q.2 (set_header_wf ndebug r key value p hwf hp) hq
      | set_body body =>
        simp only [run_resp_steps] at h
        cases hb : set_body ndebug r body with
        | abort => rw [hb] at h; simp at h
        | ret r2 =>
          rw [hb] at h
          exact ih r2 rets r1 (set_body_wf ndebug r r2 body hwf hb) h
    | caller_write i key =>
      simp only [run_resp_steps] at h
      exact ih _ rets r1 (caller_write_key_wf r i key hwf) h

theorem run_resp_steps_inv (ndebug : Bool) (steps : List RespStep) :
    ∀ (r : HttpResponse) (rets : List Bool) (r1 : HttpResponse), RespInv r →
      (∀ s ∈ steps, ∃ c, s = RespStep.call c) →
      run_resp_steps ndebug r steps = Outcome.ret (rets, r1) → RespInv r1 := by
  induction steps with
  | nil =>
    intro r rets r1 hinv _ h
    simp only [run_resp_steps, Outcome.ret.injEq, Prod.mk.injEq] at h
    rw [← h.2]; exact hinv
  | cons s rest ih =>
    intro r rets r1 hinv hcalls h
    have hrest : ∀ s ∈ rest, ∃ c, s = RespStep.call c :=
      fun s hs => hcalls s (by simp [hs])
    cases s with
    | call c =>
      cases c with
      | set_status code =>
        simp only [run_resp_steps] at h
        exact ih (set_status r code) rets r1 hinv hrest h
      | set_header key value =>
        simp only [run_resp_steps] at h
        cases hp : set_header ndebug r key value with
        | abort => rw [hp] at h; simp at h
        | ret p =>
          rw [hp] at h
          simp only at h
          cases hq : run_resp_steps ndebug p.2 rest with
          | abort => rw [hq] at h; simp at h
          | ret q =>
            rw [hq] at h
            simp only [Outcome.ret.injEq, Prod.mk.injEq] at h
            rw [← h.2]
            exact ih p.2 q.1 q.2 (set_header_inv ndebug r key value p hinv hp) hrest hq
      | set_body body =>
        simp only [run_resp_steps] at h
        cases hb : set_body ndebug r body with
        | abort => rw [hb] at h; simp at h
        | ret r2 =>
          rw [hb] at h
          exact ih r2 rets r1 (set_body_inv ndebug r r2 body hinv hb) hrest h
    | caller_write i key =>
      obtain ⟨c, hc⟩ := hcalls (RespStep.caller_write i key) (by simp)
      exact absurd hc (by simp)

/-- Counterexample to C17 as stated: the response keeps the pointer to a key, not
a copy; after `set_header` with the key "A" in a buffer, `set_header` with "B"
and a write of "B" to the buffer, the response holds two headers with the key
"B". -/
theorem duplicate_keys_reachable :
    construct_then_steps false (List.replicate 10 default) 200 ex_dup_steps
        = Outcome.ret ([true, true], ex_resp_dup) ∧
      ex_resp_dup.header_count = 3 ∧
      (ex_resp_dup.headers.getD 1 default).key = bytes "B" ∧
      (ex_resp_dup.headers.getD 2 default).key = bytes "B" ∧
      strcmp (ex_resp_dup.headers.getD 1 default).key (ex_resp_dup.headers.getD 2 default).key
        = 0 := by
  refine ⟨by decide, by decide, by decide, by decide, by decide⟩

/-- C17, amended: a response built by the constructor and any sequence of
`set_status`, `set_header` and `set_body` calls and writes of the caller to the
storage of keys holds at most ten headers; when the caller writes to no such
storage, no two of the headers have keys that `strcmp` finds equal. -/
theorem header_list_invariant (ndebug : Bool) (headers0 : List Header) (code : Int)
    (steps : List RespStep) (rets : List Bool) (r : HttpResponse)
    (hlen : headers0.length = MAX_HEADERS)
    (hbuild : construct_then_steps ndebug headers0 code steps = Outcome.ret (rets, r)) :
    r.header_count ≤ 10 ∧
      ((∀ s ∈ steps, ∃ c, s = RespStep.call c) →
        ∀ i j, i < r.header_count → j < r.header_count → i ≠ j →
          strcmp (r.headers.getD i default).key (r.headers.getD j default).key ≠ 0) := by
  unfold construct_then_steps at hbuild
  cases hn : HttpResponse.new ndebug headers0 code with
  | abort => rw [hn] at hbuild; simp at hbuild
  | ret r0 =>
    rw [hn] at hbuild
    have hinv0 := new_inv ndebug headers0 code r0 hlen hn
    refine ⟨(run_resp_steps_wf ndebug steps r0 rets r ⟨hinv0.1, hinv0.2.1⟩ hbuild).2, ?_⟩
    intro hcalls i j hi hj hij
    obtain ⟨_, _, huniq⟩ := run_resp_steps_inv ndebug steps r0 rets r hinv0 hcalls hbuild
    rcases Nat.lt_or_gt_of_ne hij with h | h
    · exact huniq j hj i h
    · intro h0
      rw [strcmp_eq_zero_iff] at h0
      exact huniq i hi j h ((strcmp_eq_zero_iff _ _).2 h0.symm)

/-- Witness of C17: the response with ten headers, followed by a `set_body`
(which finds no room for its header), a `set_status` and an overwrite, compiled
with `NDEBUG`. -/
theorem header_list_invariant_witness :
    construct_then_steps true (List.replicate 10 default) 200
        (ex_full_calls.map RespStep.call ++
          [RespStep.call (RespCall.set_body (bytes "abc")),
            RespStep.call (RespCall.set_status 404),
            RespStep.call (RespCall.set_header (some (bytes "H3")) (bytes "w"))])
      = Outcome.ret (List.replicate 10 true,
          { ex_resp_full with
            status_code := 404,
            headers := ex_resp_full.headers.set 4 { key := bytes "H3", value := bytes "w" },
            body_ := bytes "abc" }) ∧
      construct_then_steps true (List.replicate 10 default) 200
        (ex_full_calls.map RespStep.call) = Outcome.ret (List.replicate 9 true, ex_resp_full) ∧
      (ex_resp_full.header_count ≤ 10 ∧
        ((∀ s ∈ ex_full_calls.map RespStep.call, ∃ c, s = RespStep.call c) →
          ∀ i j, i < ex_resp_full.header_count → j < ex_resp_full.header_count → i ≠ j →
            strcmp (ex_resp_full.headers.getD i default).key
              (ex_resp_full.headers.getD j default).key ≠ 0)) ∧
      ex_resp_dup.header_count ≤ 10 :=
  ⟨by decide, by decide,
    header_list_invariant true (List.replicate 10 default) 200
      (ex_full_calls.map RespStep.call) (List.replicate 9 true) ex_resp_full
      (by decide) (by decide),
    (header_list_invariant false (List.replicate 10 default) 200 ex_dup_steps [true, true]
      ex_resp_dup (by decide) (by decide)).1⟩

/-- Counterexample to C7 as stated: in the response with the keys "Content-Type",
"B", "B", the key "B" is equal to the key at position 2, and `set_header` sets
the value at position 1 and leaves the value at position 2 as it was. -/
theorem set_header_overwrites_earlier_duplicate :
    construct_then_steps false (List.replicate 10 default) 200 ex_dup_steps
        = Outcome.ret ([true, true], ex_resp_dup) ∧
      strcmp (ex_resp_dup.headers.getD 2 default).key (bytes "B") = 0 ∧
      set_header false ex_resp_dup (some (bytes "B")) (bytes "new")
        = Outcome.ret (true,
            { ex_resp_dup with
              headers := [{ key := bytes "Content-Type", value := bytes "text/plain" },
                { key := bytes "B", value := bytes "new" },
                { key := bytes "B", value := bytes "2" }] ++ List.replicate 7 default }) := by
  refine ⟨by decide, by decide, by decide⟩

/-- C7, amended: on every response, `set_header` with a key that `strcmp` finds
equal to the key of the header at position `i` and to no key at an earlier
position returns true, whatever the number of headers, and changes nothing but
the value of that header. -/
theorem set_header_overwrites (ndebug : Bool) (r : HttpResponse)
    (hlen : r.headers.length = MAX_HEADERS) (hcount : r.header_count ≤ MAX_HEADERS)
    (i : Nat) (hi : i < r.header_count) (k value : List Nat)
    (hk : strcmp (r.headers.getD i default).key k = 0)
    (hfirst : ∀ j, j < i → strcmp (r.headers.getD j default).key k ≠ 0) :
    ∃ r1, set_header ndebug r (some k) value = Outcome.ret (true, r1) ∧
      r1.header_count = r.header_count ∧
      (r1.headers.getD i default).value = value ∧
      (r1.headers.getD i default).key = (r.headers.getD i default).key ∧
      (∀ j, j ≠ i → r1.headers.getD j default = r.headers.getD j default) ∧
      r1.headers.length = r.headers.length ∧
      r1.status_code = r.status_code ∧ r1.body_ = r.body_ := by
  have hfind := (find_key_some_iff r k i).2 ⟨hi, hk, hfirst⟩
  have hil : i < r.headers.length := by omega
  refine ⟨_, set_header_found ndebug r k value i hfind, rfl, ?_, ?_, ?_, ?_, rfl, rfl⟩
  · simp only; rw [getD_set_same _ _ _ _ hil]
  · simp only; rw [getD_set_same _ _ _ _ hil]
  · intro j hj
    simp only; rw [getD_set_other _ _ _ _ _ hj]
  · simp

/-- Witness of C7: `set_header("K", "v1")` then `set_header("K", "v2")` on a new
response, and an overwrite on a response that holds ten headers. -/
theorem set_header_overwrites_witness :
    construct_then false (List.replicate 10 default) 200
        [RespCall.set_header (some (bytes "K")) (bytes "v1")] = Outcome.ret ex_resp_k ∧
      ex_resp_k.header_count = 2 ∧
      (∃ r1, set_header false ex_resp_k (some (bytes "K")) (bytes "v2") = Outcome.ret (true, r1) ∧
        r1.header_count = ex_resp_k.header_count ∧
        (r1.headers.getD 1 default).value = bytes "v2" ∧
        (r1.headers.getD 1 default).key = (ex_resp_k.headers.getD 1 default).key ∧
        (∀ j, j ≠ 1 → r1.headers.getD j default = ex_resp_k.headers.getD j default) ∧
        r1.headers.length = ex_resp_k.headers.length ∧
        r1.status_code = ex_resp_k.status_code ∧ r1.body_ = ex_resp_k.body_) ∧
      construct_then false (List.replicate 10 default) 200 ex_full_calls
        = Outcome.ret ex_resp_full ∧
      ex_resp_full.header_count = MAX_HEADERS ∧
      (∃ r1, set_header false ex_resp_full (some (bytes "H8")) (bytes "w")
          = Outcome.ret (true, r1) ∧
        r1.header_count = ex_resp_full.header_count ∧
        (r1.headers.getD 9 default).value = bytes "w" ∧
        (r1.headers.getD 9 default).key = (ex_resp_full.headers.getD 9 default).key ∧
        (∀ j, j ≠ 9 → r1.headers.getD j default = ex_resp_full.headers.getD j default) ∧
        r1.headers.length = ex_resp_full.headers.length ∧
        r1.status_code = ex_resp_full.status_code ∧ r1.body_ = ex_resp_full.body_) :=
  ⟨by decide, by decide,
    set_header_overwrites false ex_resp_k (by decide) (by decide)
      1 (by decide) (bytes "K") (bytes "v2") (by decide) (by decide),
    by decide, by decide,
    set_header_overwrites false ex_resp_full (by decide) (by decide)
      9 (by decide) (bytes "H8") (bytes "w") (by decide) (by decide)⟩

theorem run_header_steps_free (ndebug : Bool) (kvs : List (List Nat × List Nat)) :
    ∀ r : HttpResponse, r.headers.length = MAX_HEADERS →
      r.header_count + kvs.length ≤ MAX_HEADERS →
      kvs.Pairwise (fun a b => strcmp a.1 b.1 ≠ 0) →
      (∀ i, i < r.header_count → ∀ kv ∈ kvs, strcmp (r.headers.getD i default).key kv.1 ≠ 0) →
      ∃ r1, run_resp_steps ndebug r (header_steps kvs)
          = Outcome.ret (List.replicate kvs.length true, r1) ∧
        r1.header_count = r.header_count + kvs.length ∧
        r1.headers.length = MAX_HEADERS ∧
        r1.status_code = r.status_code ∧ r1.body_ = r.body_ ∧
        (∀ i, i < r.header_count → r1.headers.getD i default = r.headers.getD i default) ∧
        (∀ j, j < kvs.length →
          r1.headers.getD (r.header_count + j) default
            = { key := (kvs.getD j default).1, value := (kvs.getD j default).2 }) := by
  induction kvs with
  | nil =>
    intro r hlen _ _ _
    exact ⟨r, rfl, rfl, hlen, rfl, rfl, fun _ _ => rfl, fun j hj => absurd hj (Nat.not_lt_zero j)⟩
  | cons kv rest ih =>
    intro r hlen hle hpair hnew
    simp only [List.length_cons] at hle
    have hfree : r.header_count < MAX_HEADERS := by omega
    have hf := (find_key_none_iff r kv.1).2 (fun i hi => hnew i hi kv (by simp))
    have hstep := set_header_free ndebug r kv.1 kv.2 hf hfree
    rw [List.pairwise_cons] at hpair
    obtain ⟨r1, htr, hcount, hlen1, hst, hbody, hold, hadded⟩ := ih
      { r with
        headers := r.headers.set r.header_count { key := kv.1, value := kv.2 },
        header_count := r.header_count + 1 }
      (by simp only [List.length_set]; exact hlen) (by simp only; omega) hpair.2
      (by
        intro i hi kv1 hkv1
        simp only at hi ⊢
        by_cases hic : i = r.header_count
        · subst hic
          rw [getD_set_same _ _ _ _ (by omega)]
          exact hpair.1 kv1 hkv1
        · rw [getD_set_other _ _ _ _ _ hic]
          exact hnew i (by omega) kv1 (by simp [hkv1]))
    simp only at hcount hst hbody hold hadded
    refine ⟨r1, ?_, ?_, hlen1, hst, hbody, ?_, ?_⟩
    · show run_resp_steps ndebug r
        (RespStep.call (RespCall.set_header (some kv.1) kv.2) :: header_steps rest) = _
      simp only [run_resp_steps, hstep, htr, List.length_cons, List.replicate_succ]
    · rw [hcount]; simp only [List.length_cons]; omega
    · intro i hi
      rw [hold i (by omega), getD_set_other _ _ _ _ _ (by omega)]
    · intro j hj
      cases j with
      | zero =>
        rw [Nat.add_zero, hold r.header_count (by omega), getD_set_same _ _ _ _ (by omega)]
        rfl
      | succ j =>
        have := hadded j (by simpa using hj)
        rw [show r.header_count + (j + 1) = r.header_count + 1 + j by omega, this]
        rfl

theorem run_resp_steps_append (ndebug : Bool) (l1 l2 : List RespStep) :
    ∀ r : HttpResponse,
      run_resp_steps ndebug r (l1 ++ l2) =
        match run_resp_steps ndebug r l1 with
        | Outcome.abort => Outcome.abort
        | Outcome.ret q =>
          match run_resp_steps ndebug q.2 l2 with
          | Outcome.abort => Outcome.abort
          | Outcome.ret q2 => Outcome.ret (q.1 ++ q2.1, q2.2) := by
  induction l1 with
  | nil =>
    intro r
    simp only [List.nil_append, run_resp_steps]
    cases run_resp_steps ndebug r l2 <;> rfl
  | cons s rest ih =>
    intro r
    show run_resp_steps ndebug r (s :: (rest ++ l2)) = _
    cases s with
    | call c =>
      cases c with
      | set_status code =>
        simp only [run_resp_steps]
        exact ih _
      | set_header key value =>
        simp only [run_resp_steps]
        cases set_header ndebug r key value with
        | abort => rfl
        | ret p =>
          simp only
          rw [ih p.2]
          cases run_resp_steps ndebug p.2 rest with
          | abort => rfl
          | ret q =>
            simp only
            cases run_resp_steps ndebug q.2 l2 <;> rfl
      | set_body body =>
        simp only [run_resp_steps]
        cases set_body ndebug r body with
        | abort => rfl
        | ret r1 => exact ih r1
    | caller_write i key =>
      simp only [run_resp_steps]
      exact ih _

theorem header_steps_append (l1 l2 : List (List Nat × List Nat)) :
    header_steps (l1 ++ l2) = header_steps l1 ++ header_steps l2 := by
  simp only [header_steps, List.map_append]

theorem strcmp_congr_left (a b c : List Nat) (h : strcmp a b = 0) :
    strcmp a c = 0 ↔ strcmp b c = 0 := by
  rw [strcmp_eq_zero_iff] at h ⊢
  rw [strcmp_eq_zero_iff, h]

theorem headers_without_content_type (ndebug : Bool) (headers0 : List Header) (code : Int)
    (hlen0 : headers0.length = MAX_HEADERS)
    (kvs9 : List (List Nat × List Nat)) (kv10 : List Nat × List Nat)
    (hlen : kvs9.length = 9)
    (hdist : (kvs9 ++ [kv10]).Pairwise (fun a b => strcmp a.1 b.1 ≠ 0))
    (hct : ∀ kv ∈ kvs9 ++ [kv10], strcmp (bytes "Content-Type") kv.1 ≠ 0) :
    ∃ r0 r9,
      HttpResponse.new ndebug headers0 code = Outcome.ret r0 ∧
      run_resp_steps ndebug r0 (header_steps kvs9) = Outcome.ret (List.replicate 9 true, r9) ∧
      run_resp_steps ndebug r0 (header_steps (kvs9 ++ [kv10]))
        = (if ndebug then Outcome.ret (List.replicate 9 true ++ [false], r9)
            else Outcome.abort) ∧
      r9.header_count = 10 ∧
      r9.headers.getD 0 default
        = { key := bytes "Content-Type", value := bytes "text/plain" } ∧
      (∀ j, j < 9 →
        r9.headers.getD (j + 1) default
          = { key := (kvs9.getD j default).1, value := (kvs9.getD j default).2 }) := by
  rw [List.pairwise_append] at hdist
  obtain ⟨hp1, _, hp3⟩ := hdist
  have h0len : 0 < headers0.length := by rw [hlen0]; decide
  obtain ⟨r9, htr, hcount, hlen9, _, _, hold, hadded⟩ := run_header_steps_free ndebug kvs9
    { status_code := code,
      headers := headers0.set 0 { key := bytes "Content-Type", value := bytes "text/plain" },
      header_count := 1,
      body_ := [] }
    (by simp only [List.length_set]; exact hlen0)
    (by simp only [hlen, MAX_HEADERS]; omega) hp1
    (by
      intro i hi kv hkv
      simp only at hi ⊢
      have hi0 : i = 0 := by omega
      subst hi0
      rw [getD_set_same _ _ _ _ h0len]
      exact hct kv (by simp [hkv]))
  simp only [hlen] at htr hcount hadded
  simp only at hold
  have hfirst : r9.headers.getD 0 default
      = { key := bytes "Content-Type", value := bytes "text/plain" } := by
    rw [hold 0 (by omega), getD_set_same _ _ _ _ h0len]
  have hrest : ∀ j, j < 9 → r9.headers.getD (j + 1) default
      = { key := (kvs9.getD j default).1, value := (kvs9.getD j default).2 } := by
    intro j hj
    have := hadded j hj
    rw [Nat.add_comm 1 j] at this
    exact this
  have hnew : ∀ i, i < r9.header_count →
      strcmp (r9.headers.getD i default).key kv10.1 ≠ 0 := by
    intro i hi
    rw [hcount] at hi
    cases i with
    | zero => rw [hfirst]; exact hct _ (by simp)
    | succ j =>
      rw [hrest j (by omega)]
      have hj : kvs9.getD j default ∈ kvs9 := by
        rw [List.getD_eq_getElem _ default (by omega)]
        exact List.getElem_mem _
      exact hp3 _ hj _ (by simp)
  refine ⟨_, r9, new_eq ndebug headers0 code, htr, ?_, hcount, hfirst, hrest⟩
  rw [header_steps_append, run_resp_steps_append, htr]
  simp only [header_steps, List.map_cons, List.map_nil, run_resp_steps]
  rw [set_header_full ndebug r9 _ _ ((find_key_none_iff r9 _).2 hnew)
    (by rw [hcount]; decide)]
  cases ndebug <;> rfl

theorem strcmp_self (a : List Nat) : strcmp a a = 0 := (strcmp_eq_zero_iff a a).2 rfl

theorem headers_with_content_type (ndebug : Bool) (headers0 : List Header) (code : Int)
    (hlen0 : headers0.length = MAX_HEADERS)
    (pre post : List (List Nat × List Nat)) (ct last : List Nat × List Nat)
    (hlen : pre.length + post.length = 9)
    (hdist : (pre ++ [ct] ++ post ++ [last]).Pairwise (fun a b => strcmp a.1 b.1 ≠ 0))
    (hct : strcmp (bytes "Content-Type") ct.1 = 0) :
    ∃ r0 r10,
      HttpResponse.new ndebug headers0 code = Outcome.ret r0 ∧
      run_resp_steps ndebug r0 (header_steps (pre ++ [ct] ++ post))
        = Outcome.ret (List.replicate 10 true, r10) ∧
      run_resp_steps ndebug r0 (header_steps (pre ++ [ct] ++ post ++ [last]))
        = (if ndebug then Outcome.ret (List.replicate 10 true ++ [false], r10)
            else Outcome.abort) ∧
      r10.header_count = 10 ∧
      (∀ kv ∈ pre ++ [ct] ++ post, ∃ i, i < 10 ∧
        strcmp (r10.headers.getD i default).key kv.1 = 0 ∧
        (r10.headers.getD i default).value = kv.2) := by
  rw [List.pairwise_append] at hdist
  obtain ⟨hd1, _, hlast⟩ := hdist
  rw [List.pairwise_append] at hd1
  obtain ⟨hd2, hppost, hprepost⟩ := hd1
  rw [List.pairwise_append] at hd2
  obtain ⟨hppre, _, hprect⟩ := hd2
  have hF1 : ∀ kv ∈ pre, strcmp (bytes "Content-Type") kv.1 ≠ 0 := by
    intro kv hkv h0
    have h1 := hprect kv hkv ct (by simp)
    rw [strcmp_eq_zero_iff] at h0 hct
    exact h1 ((strcmp_eq_zero_iff _ _).2 (h0.symm.trans hct))
  have hF2 : ∀ kv ∈ post, strcmp (bytes "Content-Type") kv.1 ≠ 0 := by
    intro kv hkv h0
    exact hprepost ct (by simp) kv hkv ((strcmp_congr_left _ _ _ hct).1 h0)
  have hF3 : strcmp (bytes "Content-Type") last.1 ≠ 0 := by
    intro h0
    exact hlast ct (by simp) last (by simp) ((strcmp_congr_left _ _ _ hct).1 h0)
  have h0len : 0 < headers0.length := by rw [hlen0]; decide
  -- the headers before the one with the key "Content-Type"
  obtain ⟨r1, htr1, hcount1, hlen1, _, _, hold1, hadded1⟩ := run_header_steps_free ndebug pre
    { status_code := code,
      headers := headers0.set 0 { key := bytes "Content-Type", value := bytes "text/plain" },
      header_count := 1,
      body_ := [] }
    (by simp only [List.length_set]; exact hlen0)
    (by simp only [MAX_HEADERS]; omega) hppre
    (by
      intro i hi kv hkv
      simp only at hi ⊢
      have hi0 : i = 0 := by omega
      subst hi0
      rw [getD_set_same _ _ _ _ h0len]
      exact hF1 kv hkv)
  simp only at hcount1 hold1 hadded1
  have hkey0 : r1.headers.getD 0 default
      = { key := bytes "Content-Type", value := bytes "text/plain" } := by
    rw [hold1 0 (by omega), getD_set_same _ _ _ _ h0len]
  -- the header with the key "Content-Type" overwrites slot 0
  have hfind : (List.range r1.header_count).find?
      (fun i => strcmp (r1.headers.getD i default).key ct.1 == 0) = some 0 := by
    rw [find_key_some_iff]
    refine ⟨by omega, by rw [hkey0]; exact hct, fun j hj => absurd hj (Nat.not_lt_zero j)⟩
  have hstep := set_header_found ndebug r1 ct.1 ct.2 0 hfind
  have h0len1 : 0 < r1.headers.length := by rw [hlen1]; decide
  -- the headers after it
  obtain ⟨r3, htr3, hcount3, hlen3, _, _, hold3, hadded3⟩ := run_header_steps_free ndebug post
    { r1 with headers := r1.headers.set 0 { r1.headers.getD 0 default with value := ct.2 } }
    (by simp only [List.length_set]; exact hlen1)
    (by simp only [hcount1, MAX_HEADERS]; omega) hppost
    (by
      intro i hi kv hkv
      simp only at hi ⊢
      cases i with
      | zero =>
        rw [getD_set_same _ _ _ _ h0len1, hkey0]
        exact hF2 kv hkv
      | succ j =>
        rw [getD_set_other _ _ _ _ _ (by omega)]
        have hj : j < pre.length := by omega
        have := hadded1 j hj
        rw [Nat.add_comm 1 j] at this
        rw [this]
        have hmem : pre.getD j default ∈ pre := by
          rw [List.getD_eq_getElem _ default hj]
          exact List.getElem_mem _
        exact hprepost _ (List.mem_append_left _ hmem) kv hkv)
  simp only at hcount3 hold3 hadded3
  have hcount10 : r3.header_count = 10 := by omega
  have hslot0 : r3.headers.getD 0 default = { key := bytes "Content-Type", value := ct.2 } := by
    rw [hold3 0 (by omega), getD_set_same _ _ _ _ h0len1, hkey0]
  have hslotpre : ∀ j, j < pre.length → r3.headers.getD (j + 1) default
      = { key := (pre.getD j default).1, value := (pre.getD j default).2 } := by
    intro j hj
    rw [hold3 (j + 1) (by omega), getD_set_other _ _ _ _ _ (by omega)]
    have := hadded1 j hj
    rw [Nat.add_comm 1 j] at this
    exact this
  have hnew : ∀ i, i < r3.header_count →
      strcmp (r3.headers.getD i default).key last.1 ≠ 0 := by
    intro i hi
    rw [hcount10] at hi
    cases i with
    | zero => rw [hslot0]; exact hF3
    | succ j =>
      by_cases hj : j < pre.length
      · rw [hslotpre j hj]
        have hmem : pre.getD j default ∈ pre := by
          rw [List.getD_eq_getElem _ default hj]
          exact List.getElem_mem _
        exact hlast _ (List.mem_append_left _ (List.mem_append_left _ hmem)) last (by simp)
      · have hj2 : j - pre.length < post.length := by omega
        have := hadded3 (j - pre.length) hj2
        rw [hcount1, show 1 + pre.length + (j - pre.length) = j + 1 by omega] at this
        rw [this]
        have hmem : post.getD (j - pre.length) default ∈ post := by
          rw [List.getD_eq_getElem _ default hj2]
          exact List.getElem_mem _
        exact hlast _ (List.mem_append_right _ hmem) last (by simp)
  have hrun10 : run_resp_steps ndebug
      { status_code := code,
        headers := headers0.set 0 { key := bytes "Content-Type", value := bytes "text/plain" },
        header_count := 1,
        body_ := [] } (header_steps (pre ++ [ct] ++ post))
        = Outcome.ret (List.replicate 10 true, r3) := by
    rw [header_steps_append, header_steps_append, run_resp_steps_append,
      run_resp_steps_append, htr1]
    simp only [header_steps, List.map_cons, List.map_nil, run_resp_steps, hstep]
    have htr3' := htr3
    simp only [header_steps] at htr3'
    rw [htr3']
    simp only [Outcome.ret.injEq, Prod.mk.injEq, and_true]
    rw [List.eq_replicate_iff]
    refine ⟨by simp only [List.length_append, List.length_replicate, List.length_cons,
      List.length_nil]; omega, ?_⟩
    intro b hb
    simp only [List.mem_append, List.mem_replicate, List.mem_cons, List.mem_singleton,
      List.not_mem_nil, or_false] at hb
    rcases hb with (⟨_, h⟩ | h) | ⟨_, h⟩ <;> exact h
  refine ⟨_, r3, new_eq ndebug headers0 code, hrun10, ?_, hcount10, ?_⟩
  · rw [header_steps_append, run_resp_steps_append, hrun10]
    simp only [header_steps, List.map_cons, List.map_nil, run_resp_steps]
    rw [set_header_full ndebug r3 _ _ ((find_key_none_iff r3 _).2 hnew)
      (by rw [hcount10]; decide)]
    cases ndebug <;> rfl
  · intro kv hkv
    simp only [List.mem_append, List.mem_singleton] at hkv
    rcases hkv with (hkv | hkv) | hkv
    · obtain ⟨j, hj, hjkv⟩ := List.getElem_of_mem hkv
      refine ⟨j + 1, by omega, ?_, ?_⟩
      · rw [hslotpre j hj, List.getD_eq_getElem _ default hj, hjkv]
        exact strcmp_self _
      · rw [hslotpre j hj, List.getD_eq_getElem _ default hj, hjkv]
    · subst hkv
      exact ⟨0, by omega, by rw [hslot0]; exact hct, by rw [hslot0]⟩
    · obtain ⟨j, hj, hjkv⟩ := List.getElem_of_mem hkv
      have := hadded3 j hj
      rw [List.getD_eq_getElem _ default hj, hjkv] at this
      refine ⟨r1.header_count + j, by omega, ?_, ?_⟩
      · rw [this]; exact strcmp_self _
      · rw [this]

/-- Counterexample to C12 as stated: a new response holds the header
"Content-Type" already, so of eleven new keys only nine are stored; compiled
with `NDEBUG` the tenth `set_header` returns false, as the eleventh does, and
compiled without it the tenth aborts the program; and of two different keys
passed in one buffer that the caller fills anew, the second overwrites the
first, so the response holds two headers, not three. -/
theorem eleven_headers_tenth_fails :
    HttpResponse.new true (List.replicate 10 default) 200 = Outcome.ret ex_resp ∧
      ex_eleven_headers.length = 11 ∧
      ex_eleven_headers.Pairwise (fun a b => strcmp a.1 b.1 ≠ 0) ∧
      run_resp_steps true ex_resp (header_steps ex_eleven_headers)
        = Outcome.ret (List.replicate 9 true ++ [false, false], ex_resp_full) ∧
      run_resp_steps false ex_resp (header_steps ex_eleven_headers) = Outcome.abort ∧
      construct_then_steps false (List.replicate 10 default) 200 ex_key_reuse_steps
        = Outcome.ret ([true, true], ex_resp_key_reuse) ∧
      ex_resp_key_reuse.header_count = 2 := by
  refine ⟨by decide, by decide, by decide, by decide, by decide, by decide, by decide⟩

/-- C12, amended: a newly constructed response holds one header,
"Content-Type". For eleven keys that `strcmp` finds pairwise different, passed
in storage the caller does not write to, of which one of the first ten is equal
to "Content-Type": `set_header` returns true for the first ten, the response
then holds ten headers, among them every one of the ten keys with its value,
and the eleventh call leaves that response as it is, returning false when
compiled with `NDEBUG` and stopping at the failed assertion otherwise. For ten
such keys, none equal to "Content-Type": `set_header` returns true for the first
nine, the response then holds "Content-Type" and the nine in the order of the
calls, and the tenth call leaves that response as it is, in the same two
ways. -/
theorem eleven_header_keys (ndebug : Bool) (headers0 : List Header) (code : Int)
    (hlen0 : headers0.length = MAX_HEADERS) :
    (∀ (pre post : List (List Nat × List Nat)) (ct last : List Nat × List Nat),
      pre.length + post.length = 9 →
      (pre ++ [ct] ++ post ++ [last]).Pairwise (fun a b => strcmp a.1 b.1 ≠ 0) →
      strcmp (bytes "Content-Type") ct.1 = 0 →
      ∃ r0 r10,
        HttpResponse.new ndebug headers0 code = Outcome.ret r0 ∧
        run_resp_steps ndebug r0 (header_steps (pre ++ [ct] ++ post))
          = Outcome.ret (List.replicate 10 true, r10) ∧
        run_resp_steps ndebug r0 (header_steps (pre ++ [ct] ++ post ++ [last]))
          = (if ndebug then Outcome.ret (List.replicate 10 true ++ [false], r10)
              else Outcome.abort) ∧
        r10.header_count = 10 ∧
        (∀ kv ∈ pre ++ [ct] ++ post, ∃ i, i < 10 ∧
          strcmp (r10.headers.getD i default).key kv.1 = 0 ∧
          (r10.headers.getD i default).value = kv.2)) ∧
    (∀ (kvs9 : List (List Nat × List Nat)) (kv10 : List Nat × List Nat),
      kvs9.length = 9 →
      (kvs9 ++ [kv10]).Pairwise (fun a b => strcmp a.1 b.1 ≠ 0) →
      (∀ kv ∈ kvs9 ++ [kv10], strcmp (bytes "Content-Type") kv.1 ≠ 0) →
      ∃ r0 r9,
        HttpResponse.new ndebug headers0 code = Outcome.ret r0 ∧
        run_resp_steps ndebug r0 (header_steps kvs9)
          = Outcome.ret (List.replicate 9 true, r9) ∧
        run_resp_steps ndebug r0 (header_steps (kvs9 ++ [kv10]))
          = (if ndebug then Outcome.ret (List.replicate 9 true ++ [false], r9)
              else Outcome.abort) ∧
        r9.header_count = 10 ∧
        r9.headers.getD 0 default
          = { key := bytes "Content-Type", value := bytes "text/plain" } ∧
        (∀ j, j < 9 →
          r9.headers.getD (j + 1) default
            = { key := (kvs9.getD j default).1, value := (kvs9.getD j default).2 })) :=
  ⟨fun pre post ct last hlen hdist hct =>
      headers_with_content_type ndebug headers0 code hlen0 pre post ct last hlen hdist hct,
    fun kvs9 kv10 hlen hdist hct =>
      headers_without_content_type ndebug headers0 code hlen0 kvs9 kv10 hlen hdist hct⟩

/-- Witness of C12: ten keys of which the fifth is "Content-Type", followed by
"H10", and the ten keys "H0", ..., "H9", compiled with `NDEBUG`. -/
theorem eleven_header_keys_witness :
    run_resp_steps true ex_resp
        (header_steps (ex_headers_pre ++ [(bytes "Content-Type", bytes "text/html")]
          ++ ex_headers_post ++ [(bytes "H10", bytes "v")]))
      = Outcome.ret (List.replicate 10 true ++ [false],
          { ex_resp_full with
            headers := ex_resp_full.headers.set 0
              { key := bytes "Content-Type", value := bytes "text/html" } }) ∧
      (∃ r0 r10,
        HttpResponse.new true (List.replicate 10 default) 200 = Outcome.ret r0 ∧
        run_resp_steps true r0
            (header_steps (ex_headers_pre ++ [(bytes "Content-Type", bytes "text/html")]
              ++ ex_headers_post))
          = Outcome.ret (List.replicate 10 true, r10) ∧
        run_resp_steps true r0
            (header_steps (ex_headers_pre ++ [(bytes "Content-Type", bytes "text/html")]
              ++ ex_headers_post ++ [(bytes "H10", bytes "v")]))
          = (if true = true then Outcome.ret (List.replicate 10 true ++ [false], r10)
              else Outcome.abort) ∧
        r10.header_count = 10 ∧
        (∀ kv ∈ ex_headers_pre ++ [(bytes "Content-Type", bytes "text/html")]
            ++ ex_headers_post, ∃ i, i < 10 ∧
          strcmp (r10.headers.getD i default).key kv.1 = 0 ∧
          (r10.headers.getD i default).value = kv.2)) ∧
      (∃ r0 r9,
        HttpResponse.new true (List.replicate 10 default) 200 = Outcome.ret r0 ∧
        run_resp_steps true r0 (header_steps (ex_eleven_headers.take 9))
          = Outcome.ret (List.replicate 9 true, r9) ∧
        run_resp_steps true r0
            (header_steps (ex_eleven_headers.take 9 ++ [(bytes "H9", bytes "v")]))
          = (if true = true then Outcome.ret (List.replicate 9 true ++ [false], r9)
              else Outcome.abort) ∧
        r9.header_count = 10 ∧
        r9.headers.getD 0 default
          = { key := bytes "Content-Type", value := bytes "text/plain" } ∧
        (∀ j, j < 9 →
          r9.headers.getD (j + 1) default
            = { key := ((ex_eleven_headers.take 9).getD j default).1,
                value := ((ex_eleven_headers.take 9).getD j default).2 })) :=
  ⟨by decide,
    (eleven_header_keys true (List.replicate 10 default) 200 (by decide)).1
      ex_headers_pre ex_headers_post (bytes "Content-Type", bytes "text/html")
      (bytes "H10", bytes "v") (by decide) (by decide) (by decide),
    (eleven_header_keys true (List.replicate 10 default) 200 (by decide)).2
      (ex_eleven_headers.take 9) (bytes "H9", bytes "v") (by decide) (by decide) (by decide)⟩

/-! ## The dispatch of a request: parse failure, no route, null handler -/

/-- Counterexample to C13 as stated: for a route registered with a null handler
`find_route` returns the route, and `handle_client` calls nothing and writes
the fixed 404 bytes. -/
theorem handle_client_null_handler :
    add_route false (HttpServer.new (List.replicate 10 default) (List.replicate 10 0))
        (bytes "/x") HttpMethod.GET 0 = Outcome.ret (true, ex_table_null_handler) ∧
      parse_request_line (bytes "GET /x HTTP/1.1\r\n\r\n") = some (HttpMethod.GET, bytes "/x") ∧
      find_route ex_table_null_handler (bytes "/x") HttpMethod.GET = some 0 ∧
      handle_client (example_handlers false) ex_table_null_handler []
          (some (bytes "GET /x HTTP/1.1\r\n\r\n"))
        = Outcome.ret
            ([ConnEvent.write (bytes "HTTP/1.1 404 Not Found\r\nContent-Length: 0\r\n\r\n")],
              ESP_OK) := by
  refine ⟨by decide, by decide, by decide, by decide⟩

/-- C13, amended: on a received request `handle_client` writes the fixed 404
bytes and calls nothing when `parse_request_line` fails, and then no route is
looked up, the outcome being the same for every table; it writes the same bytes
and calls nothing when `find_route` returns `nullptr` and when the route found
has a null handler; when the route found has a handler, that handler is called
once with the connection and the whole request, and what `handle_client`
returns is what that call gives, with no write of its own. -/
theorem handle_client_dispatch
    (handlers : Nat → List ConnEvent → List Nat → Outcome (List ConnEvent × Int))
    (t : HttpServer) (conn : List ConnEvent) (buf : List Nat) :
    (parse_request_line buf = none →
      ∀ t2 : HttpServer,
        handle_client handlers t2 conn (some buf)
          = Outcome.ret
              (conn ++ [ConnEvent.write
                (bytes "HTTP/1.1 404 Not Found\r\nContent-Length: 0\r\n\r\n")], ESP_FAIL)) ∧
    (∀ method uri, parse_request_line buf = some (method, uri) →
      (find_route t uri method = none →
        handle_client handlers t conn (some buf)
          = Outcome.ret
              (conn ++ [ConnEvent.write
                (bytes "HTTP/1.1 404 Not Found\r\nContent-Length: 0\r\n\r\n")], ESP_OK)) ∧
      (∀ i, find_route t uri method = some i →
        ((t.routes.getD i default).handler ≠ 0 →
          handle_client handlers t conn (some buf)
            = handlers (t.routes.getD i default).handler
                (conn ++ [ConnEvent.call (t.routes.getD i default).handler buf]) buf) ∧
        ((t.routes.getD i default).handler = 0 →
          handle_client handlers t conn (some buf)
            = Outcome.ret
                (conn ++ [ConnEvent.write
                  (bytes "HTTP/1.1 404 Not Found\r\nContent-Length: 0\r\n\r\n")], ESP_OK)))) := by
  refine ⟨?_, ?_⟩
  · intro hp t2
    simp only [handle_client, hp, send_404_eq]
  · intro method uri hp
    refine ⟨?_, ?_⟩
    · intro hf
      simp only [handle_client, hp, hf, send_404_eq]
    · intro i hf
      refine ⟨?_, ?_⟩
      · intro hh
        simp only [handle_client, hp, hf, ne_eq, hh, not_false_eq_true, if_true]
      · intro hh
        simp only [handle_client, hp, hf, ne_eq, hh, not_true_eq_false, if_false, send_404_eq]

/-- Witness of C13: a request that does not parse, one for a path that is not
registered, and one for the registered path of the example program. -/
theorem handle_client_dispatch_witness :
    handle_client (example_handlers false) example_table [] (some (bytes "DELETE /hello HTTP/1.1\r\n"))
        = Outcome.ret
            ([ConnEvent.write (bytes "HTTP/1.1 404 Not Found\r\nContent-Length: 0\r\n\r\n")],
              ESP_FAIL) ∧
      handle_client (example_handlers false) example_table [] (some (bytes "GET /nope HTTP/1.1\r\n"))
        = Outcome.ret
            ([ConnEvent.write (bytes "HTTP/1.1 404 Not Found\r\nContent-Length: 0\r\n\r\n")],
              ESP_OK) ∧
      handle_client (example_handlers false) example_table [] (some (bytes "GET /hello HTTP/1.1\r\n"))
        = example_handlers false hello_handler_addr
            ([] ++ [ConnEvent.call hello_handler_addr (bytes "GET /hello HTTP/1.1\r\n")])
            (bytes "GET /hello HTTP/1.1\r\n") :=
  ⟨(handle_client_dispatch (example_handlers false) example_table []
      (bytes "DELETE /hello HTTP/1.1\r\n")).1 (by decide) example_table,
    ((handle_client_dispatch (example_handlers false) example_table []
      (bytes "GET /nope HTTP/1.1\r\n")).2 HttpMethod.GET (bytes "/nope") (by decide)).1 (by decide),
    (((handle_client_dispatch (example_handlers false) example_table []
      (bytes "GET /hello HTTP/1.1\r\n")).2 HttpMethod.GET (bytes "/hello") (by decide)).2 0
        (by decide)).1 (by decide)⟩


/-! ## The body and its Content-Length header -/

/-- C9, amended: on a response that holds fewer than ten headers, or holds a
header with the key "Content-Length", `set_body` stores the body and leaves a
header with the key "Content-Length" whose value is the decimal length of the
body; on a response that holds ten headers, none of them with that key, it
stores the body and leaves the headers as they were when compiled with
`NDEBUG`, and stops at the failed assertion otherwise. -/
theorem set_body_sets_content_length (ndebug : Bool) (r : HttpResponse) (body : List Nat)
    (hlen : r.headers.length = MAX_HEADERS) (hcount : r.header_count ≤ MAX_HEADERS) :
    (((∃ i, i < r.header_count ∧
          strcmp (r.headers.getD i default).key (bytes "Content-Length") = 0) ∨
        r.header_count < MAX_HEADERS) →
      ∃ r1, set_body ndebug r body = Outcome.ret r1 ∧
        r1.body_ = body ∧ r1.status_code = r.status_code ∧
        ∃ i, i < r1.header_count ∧
          strcmp (r1.headers.getD i default).key (bytes "Content-Length") = 0 ∧
          (r1.headers.getD i default).value = decimal body.length) ∧
    ((∀ i, i < r.header_count →
          strcmp (r.headers.getD i default).key (bytes "Content-Length") ≠ 0) →
      MAX_HEADERS ≤ r.header_count →
      set_body ndebug r body
        = if ndebug then Outcome.ret { r with body_ := body } else Outcome.abort) := by
  refine ⟨?_, ?_⟩
  · intro hcase
    cases hf : (List.range ({ r with body_ := body } : HttpResponse).header_count).find?
        (fun i => strcmp (({ r with body_ := body } : HttpResponse).headers.getD i default).key
          (bytes "Content-Length") == 0) with
    | some j =>
      have hstep := set_header_found ndebug { r with body_ := body } (bytes "Content-Length")
        (decimal body.length) j hf
      have hj := (find_key_some_iff { r with body_ := body } (bytes "Content-Length") j).1 hf
      simp only at hj
      have hjl : j < r.headers.length := by omega
      have hsb : set_body ndebug r body = Outcome.ret
          { r with
            body_ := body,
            headers := r.headers.set j
              { r.headers.getD j default with value := decimal body.length } } := by
        unfold set_body
        rw [hstep]
      refine ⟨_, hsb, rfl, rfl, j, hj.1, ?_, ?_⟩
      · simp only; rw [getD_set_same _ _ _ _ hjl]; exact hj.2.1
      · simp only; rw [getD_set_same _ _ _ _ hjl]
    | none =>
      have hnone := (find_key_none_iff { r with body_ := body } (bytes "Content-Length")).1 hf
      simp only at hnone
      have hfree : r.header_count < MAX_HEADERS := by
        rcases hcase with ⟨i, hi, hik⟩ | h
        · exact absurd hik (hnone i hi)
        · exact h
      have hstep := set_header_free ndebug { r with body_ := body } (bytes "Content-Length")
        (decimal body.length) hf hfree
      have hsb : set_body ndebug r body = Outcome.ret
          { r with
            body_ := body,
            headers := r.headers.set r.header_count
              { key := bytes "Content-Length", value := decimal body.length },
            header_count := r.header_count + 1 } := by
        unfold set_body
        rw [hstep]
      refine ⟨_, hsb, rfl, rfl, r.header_count, ?_, ?_, ?_⟩
      · simp only; omega
      · simp only; rw [getD_set_same _ _ _ _ (by omega)]; exact strcmp_self _
      · simp only; rw [getD_set_same _ _ _ _ (by omega)]
  · intro hnew hfull
    have hf := (find_key_none_iff { r with body_ := body } (bytes "Content-Length")).2 hnew
    have hstep := set_header_full ndebug { r with body_ := body } (bytes "Content-Length")
      (decimal body.length) hf hfull
    unfold set_body
    rw [hstep]
    cases ndebug <;> rfl

/-- Witness of C9: `set_body("Hello, World!")` on a new response, and a second
`set_body` on the result. -/
theorem set_body_sets_content_length_witness :
    set_body false ex_resp (bytes "Hello, World!") = Outcome.ret ex_resp_hello ∧
      (ex_resp_hello.headers.getD 1 default)
        = { key := bytes "Content-Length", value := bytes "13" } ∧
      (∃ r1, set_body false ex_resp (bytes "Hello, World!") = Outcome.ret r1 ∧
        r1.body_ = bytes "Hello, World!" ∧ r1.status_code = ex_resp.status_code ∧
        ∃ i, i < r1.header_count ∧
          strcmp (r1.headers.getD i default).key (bytes "Content-Length") = 0 ∧
          (r1.headers.getD i default).value = decimal (bytes "Hello, World!").length) ∧
      (∃ r1, set_body false ex_resp_hello (bytes "abc") = Outcome.ret r1 ∧
        r1.body_ = bytes "abc" ∧ r1.status_code = ex_resp_hello.status_code ∧
        ∃ i, i < r1.header_count ∧
          strcmp (r1.headers.getD i default).key (bytes "Content-Length") = 0 ∧
          (r1.headers.getD i default).value = decimal (bytes "abc").length) :=
  ⟨by decide, by decide,
    (set_body_sets_content_length false ex_resp (bytes "Hello, World!") (by decide)
      (by decide)).1 (Or.inr (by decide)),
    (set_body_sets_content_length false ex_resp_hello (bytes "abc") (by decide)
      (by decide)).1 (Or.inl ⟨1, by decide, by decide⟩)⟩

end http_server
